import Mathlib

/-!
Shallow embedding of the `dcm-bag-validator` repository (Python) in Lean 4,
together with theorems settling the specification's claims.

Embedded modules:
* `dcm_bag_validator/payload_structure.py` (`PayloadStructureValidator`)
* `dcm_bag_validator/file_integrity.py` (`FileIntegrityValidator`,
  `hash_from_bytes`, `hash_from_file`, `SUPPORTED_HASHING_METHODS`)
* `dcm_bag_validator/file_format.py` (`FileFormatValidator`)
* `dcm_bag_validator/payload_integrity.py` (`PayloadIntegrityValidator`),
  abstracted over the external `bagit` library outcomes
* `dcm_bag_validator/errors.py` (exception kinds)

External collaborators (`dcm_common.Logger`, `pathlib`, `re`, `hashlib`,
`fido`, `bagit`) are modelled explicitly below: the logger as a list of
diagnostics, `pathlib.PurePath.as_posix` as a path-component normalizer for
relative paths, the fragment of Python regular expressions used by the
validator (character literals, `.`, `\d`, `\.`, `\\`, and the postfix
quantifiers `*`, `+`, `?`) as a derivative-based engine, and the hashlib
digests as full Lean implementations of MD5/SHA-1/SHA-256/SHA-512.

Python exceptions are modelled with `Except`; a method that mutates
`self.log` is modelled as returning the list of diagnostics it appended.
-/

namespace DcmBag

/-! ## Diagnostics model (external `dcm_common.Logger`)

Modelled from the spec: `dcm_common` is an external dependency (not part of
this repository).  Its `Logger` is "an ordered sequence of Diagnostics"; a
diagnostic has a severity (`LoggingContext`), an origin and a message body,
and a run "failed" iff at least one Error-severity diagnostic was logged. -/

/-- Severity levels of `dcm_common.LoggingContext`. -/
inductive Context where
  | INFO : Context
  | WARNING : Context
  | ERROR : Context
deriving DecidableEq, Repr

/-- One logged diagnostic: severity, origin and message body. -/
structure Diagnostic where
  context : Context
  origin : String
  body : String
deriving DecidableEq, Repr

/-- A `Logger` run is the ordered list of its diagnostics. -/
abbrev Logger := List Diagnostic

/-- `Context.ERROR in self.log`: the run contains an Error diagnostic. -/
def Logger.hasError (log : Logger) : Bool :=
  log.any fun d => d.context == Context.ERROR

/-- Join strings with a separator (the semantics of
`String.intercalate`, written so that it reduces by computation). -/
def joinSep (sep : String) : List String → String
  | [] => ""
  | s :: rest => rest.foldl (fun acc x => acc ++ sep ++ x) s

/-- Modelled from the spec: `str(self.log)` flattens the report text;
the validators post-process it with `.replace("\n", " ")`.  The exact
rendering of `dcm_common.Logger.__str__` is external; the model joins the
message bodies (which is enough to "carry the flattened Report text"). -/
def Logger.flattened (log : Logger) : String :=
  joinSep " " (log.map fun d => d.body)

/-! ## Python exceptions (`dcm_bag_validator/errors.py` and builtins) -/

/-- Exceptions raised by the validators: the component-specific
`ValidationError` subclasses from `errors.py`, the builtin `ValueError`
used for configuration problems, and a re-raised `bagit.BagError`. -/
inductive PyError where
  | payloadStructureValidationError (msg : String) : PyError
  | payloadIntegrityValidationError (msg : String) : PyError
  | fileFormatValidationError (msg : String) : PyError
  | valueError (msg : String) : PyError
  | bagitBagError (msg : String) : PyError
deriving DecidableEq, Repr

/-- Whether an exceptional result is the builtin `ValueError`. -/
def PyError.isValueError : PyError → Bool
  | .valueError _ => true
  | _ => false

instance : DecidableEq (Except PyError Nat) := fun a b =>
  match a, b with
  | .ok x, .ok y =>
    decidable_of_iff (x = y)
      ⟨fun h => by rw [h], fun h => by injection h⟩
  | .ok _, .error _ => isFalse fun h => Except.noConfusion h
  | .error _, .ok _ => isFalse fun h => Except.noConfusion h
  | .error x, .error y =>
    decidable_of_iff (x = y)
      ⟨fun h => by rw [h], fun h => by injection h⟩

/-! ## `pathlib` model: `Path(s).as_posix()` for relative paths

`pathlib.PurePath` parses a path into components, dropping empty components
(duplicate or trailing separators) and `.` components; `as_posix` renders
the components joined by `/`, and the empty path renders as `.`.  The model
covers relative paths (all paths handled by the validator are
bag-relative); the drive/root handling of absolute paths is not needed. -/

/-- Split a character list at `/` separators (like `str.split("/")`). -/
def splitSlash : List Char → List (List Char)
  | [] => [[]]
  | c :: rest =>
    if c = '/' then [] :: splitSlash rest
    else
      match splitSlash rest with
      | [] => [[c]]
      | comp :: comps => (c :: comp) :: comps

/-- Components of a relative path: empty and `.` parts are dropped. -/
def pathParts (l : List Char) : List (List Char) :=
  (splitSlash l).filter fun comp => comp ≠ [] && comp ≠ ['.']

/-- Join components with `/`. -/
def joinSlash : List (List Char) → List Char
  | [] => []
  | [comp] => comp
  | comp :: comps => comp ++ '/' :: joinSlash comps

/-- `Path(s).as_posix()` on a relative path. -/
def as_posix (s : String) : String :=
  match pathParts s.data with
  | [] => "."
  | parts => ⟨joinSlash parts⟩

/-! ## Python `re` model (fragment used by the validator)

The profiles and selectors appearing in this repository use character
literals, `.`, the escapes `\d`, `\.`, `\\`, and the postfix quantifiers
`*`, `+`, `?`.  The model parses exactly this fragment (other characters
are literals, as in `re` for non-special characters) and decides matching
with Brzozowski derivatives.  `re.match` anchors at the start only
(success iff the pattern matches some prefix of the string) while
`re.fullmatch` requires the whole string to match. -/

/-- Regular expressions over characters; `cls p` matches a single
character satisfying `p` (this subsumes literals, `.` and `\d`). -/
inductive Regex where
  | epsilon : Regex
  | cls (p : Char → Bool) : Regex
  | seq (r1 r2 : Regex) : Regex
  | alt (r1 r2 : Regex) : Regex
  | star (r : Regex) : Regex

/-- The regex matching no string at all. -/
def Regex.nothing : Regex := Regex.cls fun _ => false

/-- Does the regex accept the empty string? -/
def Regex.nullable : Regex → Bool
  | .epsilon => true
  | .cls _ => false
  | .seq r1 r2 => r1.nullable && r2.nullable
  | .alt r1 r2 => r1.nullable || r2.nullable
  | .star _ => true

/-- Brzozowski derivative with respect to one character. -/
def Regex.deriv : Regex → Char → Regex
  | .epsilon, _ => Regex.nothing
  | .cls p, c => if p c then .epsilon else Regex.nothing
  | .seq r1 r2, c =>
    if r1.nullable then .alt (.seq (r1.deriv c) r2) (r2.deriv c)
    else .seq (r1.deriv c) r2
  | .alt r1 r2, c => .alt (r1.deriv c) (r2.deriv c)
  | .star r, c => .seq (r.deriv c) (.star r)

/-- Whole-string matching (the semantics of `re.fullmatch`). -/
def Regex.matchWhole (r : Regex) (s : List Char) : Bool :=
  (s.foldl Regex.deriv r).nullable

/-- Start-anchored matching (the semantics of `re.match`): succeeds iff
the pattern matches some prefix of the string. -/
def Regex.matchStart : Regex → List Char → Bool
  | r, [] => r.nullable
  | r, c :: cs => r.nullable || (r.deriv c).matchStart cs

/-- Language membership: the specification of which strings a regex
matches. -/
inductive Regex.RMatches : Regex → List Char → Prop where
  | epsilon : Regex.RMatches .epsilon []
  | cls {p : Char → Bool} {c : Char} :
      p c = true → Regex.RMatches (.cls p) [c]
  | seq {r1 r2 : Regex} {s1 s2 : List Char} :
      Regex.RMatches r1 s1 → Regex.RMatches r2 s2 →
      Regex.RMatches (.seq r1 r2) (s1 ++ s2)
  | altL {r1 r2 : Regex} {s : List Char} :
      Regex.RMatches r1 s → Regex.RMatches (.alt r1 r2) s
  | altR {r1 r2 : Regex} {s : List Char} :
      Regex.RMatches r2 s → Regex.RMatches (.alt r1 r2) s
  | starNil {r : Regex} : Regex.RMatches (.star r) []
  | starCons {r : Regex} {s1 s2 : List Char} :
      Regex.RMatches r s1 → Regex.RMatches (.star r) s2 →
      Regex.RMatches (.star r) (s1 ++ s2)

/-- Parse one atom of the pattern fragment: an escape (`\d` is the digit
class, any other escaped character a literal), `.` (any character except
newline, as in `re` without `DOTALL`), or a literal character. -/
def escAtom (c : Char) : Regex :=
  if c = 'd' then .cls Char.isDigit else .cls fun x => x == c

/-- Atom for an unescaped pattern character. -/
def charAtom (c : Char) : Regex :=
  if c = '.' then .cls fun x => x ≠ '\n' else .cls fun x => x == c

/-- Apply an optional postfix quantifier to an atom. -/
def applyPost (a : Regex) (c : Char) : Regex :=
  if c = '*' then .star a
  else if c = '+' then .seq a (.star a)
  else .alt a .epsilon

/-- Parse the pattern fragment into a regex, sequencing left to right;
`none` models a `re.error` (dangling quantifier or trailing backslash).
The `Nat` argument is recursion fuel: every step consumes at least one
character and one unit of fuel, so fuel equal to the pattern length
(as supplied by `parseRegex`) never runs out. -/
def parsePat : Nat → List Char → Regex → Option Regex
  | _, [], acc => some acc
  | 0, _ :: _, _ => none
  | fuel + 1, '\\' :: rest, acc =>
    match rest with
    | [] => none
    | c :: '*' :: rest2 => parsePat fuel rest2 (.seq acc (applyPost (escAtom c) '*'))
    | c :: '+' :: rest2 => parsePat fuel rest2 (.seq acc (applyPost (escAtom c) '+'))
    | c :: '?' :: rest2 => parsePat fuel rest2 (.seq acc (applyPost (escAtom c) '?'))
    | c :: rest2 => parsePat fuel rest2 (.seq acc (escAtom c))
  | fuel + 1, c :: rest, acc =>
    if c = '*' ∨ c = '+' ∨ c = '?' then none
    else
      match rest with
      | '*' :: rest2 => parsePat fuel rest2 (.seq acc (applyPost (charAtom c) '*'))
      | '+' :: rest2 => parsePat fuel rest2 (.seq acc (applyPost (charAtom c) '+'))
      | '?' :: rest2 => parsePat fuel rest2 (.seq acc (applyPost (charAtom c) '?'))
      | _ => parsePat fuel rest (.seq acc (charAtom c))

/-- Compile a pattern string (`re.compile`); `none` is a `re.error`. -/
def parseRegex (pattern : String) : Option Regex :=
  parsePat pattern.data.length pattern.data .epsilon

/-- `re.match(pattern, s)` viewed as a boolean: does the compiled pattern
match at the start of `s`?  Patterns outside the modelled fragment's
grammar (which raise `re.error` in Python) yield `false`. -/
def re_match (pattern s : String) : Bool :=
  match parseRegex pattern with
  | some r => r.matchStart s.data
  | none => false

/-- `re.fullmatch(pattern, s)` viewed as a boolean. -/
def re_fullmatch (pattern s : String) : Bool :=
  match parseRegex pattern with
  | some r => r.matchWhole s.data
  | none => false

/-! ## `payload_structure.py`: `PayloadStructureValidator`

The validator's state relevant to `validate_bag` is the profile (only the
keys `Payload-Folders-Allowed` and `Payload-Folders-Required` are read),
the profile url (used in log messages), and the derived `allowed` /
`required` lists.  The on-disk bag is modelled as the list of payload
files (paths relative to the payload root `data/`, in listing order, as
produced by `util.list_directory_content`) plus any further directories
existing under `data/`. -/

/-- An entry of `Payload-Folders-Allowed`: a string literal or a
`{"regex": ...}` dictionary. -/
inductive AllowedEntry where
  | lit (s : String) : AllowedEntry
  | rgx (s : String) : AllowedEntry
deriving DecidableEq, Repr

/-- The profile keys read by `PayloadStructureValidator.__init__` /
`validate_bag`; `none` models an absent key. -/
structure PSProfile where
  payloadFoldersAllowed : Option (List AllowedEntry)
  payloadFoldersRequired : Option (List String)
deriving DecidableEq, Repr

/-- The dictionaries `{"string": ..., "is_regex": ...}` used internally. -/
structure PayloadFolderDict where
  string : String
  is_regex : Bool
deriving DecidableEq, Repr

/-- `input_value + ("/" if input_value[-1] != "/" else "")`.  (For the
empty string the Python expression raises `IndexError`; profile entries
are nonempty.) -/
def addTrailingSlash (s : String) : String :=
  if s.data.getLast? = some '/' then s else s ++ "/"

/-- `process_allowed_regex_from_profile` from
`PayloadStructureValidator.__init__`. -/
def process_allowed_regex_from_profile : AllowedEntry → PayloadFolderDict
  | .rgx s => { string := addTrailingSlash s, is_regex := true }
  | .lit s => { string := addTrailingSlash s, is_regex := false }

/-- `self.allowed` as computed in `__init__`: processed entries, or the
catch-all regex rule `.*` when `Payload-Folders-Allowed` is absent. -/
def mkAllowed (profile : PSProfile) : List PayloadFolderDict :=
  match profile.payloadFoldersAllowed with
  | some entries => entries.map process_allowed_regex_from_profile
  | none => [{ string := ".*", is_regex := true }]

/-- `self.required` as computed in `__init__`: the required folders as
literal rules (note: no trailing separator is appended here). -/
def mkRequired (profile : PSProfile) : List PayloadFolderDict :=
  match profile.payloadFoldersRequired with
  | some entries => entries.map fun x => { string := x, is_regex := false }
  | none => []

/-- The on-disk bag as seen by the payload-structure checks. -/
structure Bag where
  /-- Payload files: paths relative to `bag_path/"data"`, in the order
  returned by `util.list_directory_content`. -/
  payloadFiles : List String
  /-- Directories under `bag_path/"data"` beyond the parents of listed
  files (e.g. empty directories). -/
  payloadDirs : List String
deriving DecidableEq, Repr

/-- `(bag_path / "data" / d).is_dir()`: the directory exists iff it is
listed explicitly or some payload file lies beneath it. -/
def Bag.isPayloadDir (bag : Bag) (d : String) : Bool :=
  bag.payloadDirs.any (fun x => as_posix x == as_posix d) ||
    bag.payloadFiles.any (fun f =>
      (as_posix d ++ "/").data.isPrefixOf (as_posix f).data)

/-- `PayloadStructureValidator.VALIDATOR_TAG` (the default log origin). -/
def PS_TAG : String := "Payload Structure Validator"

/-- Helper: an `INFO` diagnostic from the payload-structure validator. -/
def psInfo (body : String) : Diagnostic :=
  { context := .INFO, origin := PS_TAG, body := body }

/-- Helper: an `ERROR` diagnostic from the payload-structure validator. -/
def psError (body : String) : Diagnostic :=
  { context := .ERROR, origin := PS_TAG, body := body }

/-- `PayloadStructureValidator.match_any_regex`: the candidate path is
normalized to POSIX form; each rule is tested as a start-anchored regex
(`re.match`) when `use_as_regex_anyway` or its `is_regex` flag is set,
and by normalized string equality otherwise; true on first match. -/
def match_any_regex (path : String) (patterns : List PayloadFolderDict)
    (use_as_regex_anyway : Bool) : Bool :=
  let p := as_posix path
  patterns.any fun pattern =>
    if use_as_regex_anyway || pattern.is_regex then
      re_match pattern.string p
    else
      as_posix pattern.string == p

/-- `PayloadStructureValidator._validate_payload_directories_allowed`:
every member of `required` must satisfy `match_any_regex` against
`allowed`; returns the check outcome and the logged diagnostics. -/
def validate_payload_directories_allowed
    (required allowed : List PayloadFolderDict) : Bool × Logger :=
  let required_but_not_allowed :=
    required.filter fun f => !(match_any_regex f.string allowed false)
  (required_but_not_allowed.isEmpty,
    required_but_not_allowed.map fun f =>
      psError ("Required payload directory '" ++ f.string ++
        "' not listed in Payload-Folders-Allowed."))

/-- `PayloadStructureValidator._validate_payload_directories_required`:
every folder in `Payload-Folders-Required` must exist in the bag;
vacuously true when the key is absent. -/
def validate_payload_directories_required
    (profile : PSProfile) (bag : Bag) : Bool × Logger :=
  match profile.payloadFoldersRequired with
  | none => (true, [])
  | some dirs =>
    let missing := dirs.filter fun d => !(bag.isPayloadDir d)
    (missing.isEmpty,
      missing.map fun d =>
        psError ("Required payload directory '" ++ d ++
          "' is not present in Bag."))

/-- `PayloadStructureValidator._validate_payload_dir_files`: every
payload file's relative path must match some allowed rule, every rule
being used as a start-anchored regex (`use_as_regex_anyway=True`);
vacuously true when `Payload-Folders-Allowed` is absent.  The log names
each offending file relative to the bag root (hence the `data/`). -/
def validate_payload_dir_files (profile : PSProfile)
    (allowed : List PayloadFolderDict) (bag : Bag) : Bool × Logger :=
  match profile.payloadFoldersAllowed with
  | none => (true, [])
  | some _ =>
    let disallowed_payload_files :=
      bag.payloadFiles.filter fun p => !(match_any_regex p allowed true)
    (disallowed_payload_files.isEmpty,
      disallowed_payload_files.map fun f =>
        psError ("File 'data/" ++ f ++
          "' found in illegal location of payload directory."))

/-- Python `str.lower()` (per-character lowering; identical on the
ASCII range handled here). -/
def strLower (s : String) : String :=
  ⟨s.data.map Char.toLower⟩

/-- The collision pairs found by
`_validate_payload_files_capitalization`: each file whose lowercase form
was seen before is paired with the remembered first occurrence; `checked`
is the dictionary of already-seen lowercase forms. -/
def capCollisions : List String → List (String × String) → List (String × String)
  | [], _ => []
  | f :: rest, checked =>
    let fl := (strLower f)
    match checked.find? (fun kv => kv.1 == fl) with
    | some kv => (f, kv.2) :: capCollisions rest checked
    | none => capCollisions rest ((fl, f) :: checked)

/-- The diagnostic logged for one capitalization collision. -/
def capDiag (c : String × String) : Diagnostic :=
  psError ("File '" ++ c.1 ++ "' and '" ++ c.2 ++
    "' only differ in their capitalization.")

/-- `PayloadStructureValidator._validate_payload_files_capitalization`:
paths are taken relative to the bag root (`data/` prefix), lowercased,
and collisions with the first-seen path are Errors. -/
def validate_payload_files_capitalization (bag : Bag) : Bool × Logger :=
  let collisions :=
    capCollisions (bag.payloadFiles.map fun f => "data/" ++ f) []
  (collisions.isEmpty, collisions.map capDiag)

/-- `POSITIVE_RESPONSE_ALLOW_REQ.format(url=...)`. -/
def PS_POS_ALLOW_REQ (url : String) : String :=
  "\x1b[32mBag's payload's root directories conform to profile\x1b[0m (" ++
    url ++ ")."

/-- `NEGATIVE_RESPONSE_ALLOW_REQ.format(url=...)`. -/
def PS_NEG_ALLOW_REQ (url : String) : String :=
  "\x1b[31mBag's payload's root directories do not conform to profile\x1b[0m (" ++
    url ++ ")."

/-- `POSITIVE_RESPONSE_STRUCT`. -/
def PS_POS_STRUCT : String :=
  "\x1b[32mBag's payload directory structure conforms to profile.\x1b[0m"

/-- `NEGATIVE_RESPONSE_STRUCT`. -/
def PS_NEG_STRUCT : String :=
  "\x1b[31mBag's payload directory structure does not conform to profile.\x1b[0m"

/-- `POSITIVE_RESPONSE_CAP`. -/
def PS_POS_CAP : String :=
  "\x1b[32mBag's payload filenames' capitalization is fine.\x1b[0m"

/-- `NEGATIVE_RESPONSE_CAP`. -/
def PS_NEG_CAP : String :=
  "\x1b[31mBag's payload filenames' capitalization is problematic.\x1b[0m"

/-- `PayloadStructureValidator.validate_bag`: runs the
allowed/required reconciliation and existence checks (combined with a
non-short-circuiting `all([...])`), the file-placement check and the
capitalization check, logging an `INFO` verdict after each stage; if any
stage failed it raises `PayloadStructureValidationError` carrying the
flattened log, otherwise it returns `0`. -/
def PayloadStructureValidator.validate_bag (url : String)
    (profile : PSProfile) (bag : Bag) : Logger × Except PyError Nat :=
  let allowed := mkAllowed profile
  let required := mkRequired profile
  let r1 := validate_payload_directories_allowed required allowed
  let r2 := validate_payload_directories_required profile bag
  let log12 := r1.2 ++ r2.2 ++
    [psInfo (if r1.1 && r2.1 then PS_POS_ALLOW_REQ url else PS_NEG_ALLOW_REQ url)]
  let r3 := validate_payload_dir_files profile allowed bag
  let log3 := r3.2 ++ [psInfo (if r3.1 then PS_POS_STRUCT else PS_NEG_STRUCT)]
  let r4 := validate_payload_files_capitalization bag
  let log4 := r4.2 ++ [psInfo (if r4.1 then PS_POS_CAP else PS_NEG_CAP)]
  let log := log12 ++ log3 ++ log4
  if r1.1 && r2.1 && r3.1 && r4.1 then
    (log, .ok 0)
  else
    (log, .error (.payloadStructureValidationError
      ("At least one error occurred during validation: " ++ Logger.flattened log)))

/-! ## `hashlib` model: MD5, SHA-1, SHA-256, SHA-512

The four digests named in `SUPPORTED_HASHING_METHODS` are implemented in
full over byte lists (`List Nat`, each byte `< 256`), with machine words
as `Nat` reduced by `% 2^32` / `% 2^64`.  `hexdigest()` renders the
digest in lowercase hexadecimal. -/

/-- `2^32`. -/
def M32 : Nat := 4294967296

/-- `2^64`. -/
def M64 : Nat := 18446744073709551616

/-- 32-bit rotate left. -/
def rotl32 (x s : Nat) : Nat := ((x <<< s) ||| (x >>> (32 - s))) % M32

/-- 32-bit rotate right. -/
def rotr32 (x s : Nat) : Nat := ((x >>> s) ||| (x <<< (32 - s))) % M32

/-- 64-bit rotate right. -/
def rotr64 (x s : Nat) : Nat := ((x >>> s) ||| (x <<< (64 - s))) % M64

/-- 32-bit bitwise complement (for words `< 2^32`). -/
def not32 (x : Nat) : Nat := x ^^^ (M32 - 1)

/-- `n` bytes of `x`, big-endian. -/
def bytesBE (n x : Nat) : List Nat :=
  (List.range n).map fun i => (x >>> (8 * (n - 1 - i))) % 256

/-- `n` bytes of `x`, little-endian. -/
def bytesLE (n x : Nat) : List Nat :=
  (List.range n).map fun i => (x >>> (8 * i)) % 256

/-- A lowercase hexadecimal digit. -/
def hexDigit (n : Nat) : Char :=
  if n < 10 then Char.ofNat (48 + n) else Char.ofNat (87 + n)

/-- Two lowercase hexadecimal digits of a byte. -/
def byteHex (b : Nat) : String :=
  ⟨[hexDigit ((b / 16) % 16), hexDigit (b % 16)]⟩

/-- Lowercase hexadecimal rendering of a byte list. -/
def hexOfBytes (bs : List Nat) : String :=
  String.join (bs.map byteHex)

/-- Number of zero padding bytes: message, the `0x80` byte, the zeros and
the length field together fill whole blocks. -/
def padZeros (len block lenField : Nat) : Nat :=
  (2 * block - ((len + 1 + lenField) % block)) % block

/-- Merkle–Damgård padding: `0x80`, zeros, then the bit-length field. -/
def mdPad (msg : List Nat) (block lenField : Nat) (lenBytes : List Nat) :
    List Nat :=
  msg ++ 128 :: List.replicate (padZeros msg.length block lenField) 0 ++ lenBytes

/-- 32-bit word `j` of a block, little-endian. -/
def wordLE (block : List Nat) (j : Nat) : Nat :=
  block.getD (4 * j) 0 + ((block.getD (4 * j + 1) 0) <<< 8) +
    ((block.getD (4 * j + 2) 0) <<< 16) + ((block.getD (4 * j + 3) 0) <<< 24)

/-- 32-bit word `j` of a block, big-endian. -/
def wordBE (block : List Nat) (j : Nat) : Nat :=
  ((block.getD (4 * j) 0) <<< 24) + ((block.getD (4 * j + 1) 0) <<< 16) +
    ((block.getD (4 * j + 2) 0) <<< 8) + block.getD (4 * j + 3) 0

/-- 64-bit word `j` of a block, big-endian. -/
def wordBE64 (block : List Nat) (j : Nat) : Nat :=
  (List.range 8).foldl (fun acc i => (acc <<< 8) + block.getD (8 * j + i) 0) 0

/-- The MD5 sine-derived round constants. -/
def md5K : List Nat := [
  3614090360, 3905402710, 606105819, 3250441966, 4118548399, 1200080426,
  2821735955, 4249261313, 1770035416, 2336552879, 4294925233, 2304563134,
  1804603682, 4254626195, 2792965006, 1236535329, 4129170786, 3225465664,
  643717713, 3921069994, 3593408605, 38016083, 3634488961, 3889429448,
  568446438, 3275163606, 4107603335, 1163531501, 2850285829, 4243563512,
  1735328473, 2368359562, 4294588738, 2272392833, 1839030562, 4259657740,
  2763975236, 1272893353, 4139469664, 3200236656, 681279174, 3936430074,
  3572445317, 76029189, 3654602809, 3873151461, 530742520, 3299628645,
  4096336452, 1126891415, 2878612391, 4237533241, 1700485571, 2399980690,
  4293915773, 2240044497, 1873313359, 4264355552, 2734768916, 1309151649,
  4149444226, 3174756917, 718787259, 3951481745]

/-- The MD5 per-round shift amounts. -/
def md5S : List Nat := [
  7, 12, 17, 22, 7, 12, 17, 22, 7, 12, 17, 22, 7, 12, 17, 22,
  5, 9, 14, 20, 5, 9, 14, 20, 5, 9, 14, 20, 5, 9, 14, 20,
  4, 11, 16, 23, 4, 11, 16, 23, 4, 11, 16, 23, 4, 11, 16, 23,
  6, 10, 15, 21, 6, 10, 15, 21, 6, 10, 15, 21, 6, 10, 15, 21]

/-- One MD5 round on the state `(a, b, c, d)`. -/
def md5Step (block : List Nat) (st : Nat × Nat × Nat × Nat) (i : Nat) :
    Nat × Nat × Nat × Nat :=
  match st with
  | (a, b, c, d) =>
    let fg : Nat × Nat :=
      if i < 16 then ((b &&& c) ||| (not32 b &&& d), i)
      else if i < 32 then ((d &&& b) ||| (not32 d &&& c), (5 * i + 1) % 16)
      else if i < 48 then (b ^^^ c ^^^ d, (3 * i + 5) % 16)
      else (c ^^^ (b ||| not32 d), (7 * i) % 16)
    let f := (fg.1 + a + md5K.getD i 0 + wordLE block fg.2) % M32
    (d, (b + rotl32 f (md5S.getD i 0)) % M32, b, c)

/-- MD5 compression over all 64-byte blocks of a padded message. -/
def md5Blocks (p : List Nat) : Nat × Nat × Nat × Nat :=
  (List.range (p.length / 64)).foldl
    (fun st i =>
      let block := (p.drop (64 * i)).take 64
      match st, (List.range 64).foldl (md5Step block) st with
      | (a0, b0, c0, d0), (a, b, c, d) =>
        ((a0 + a) % M32, (b0 + b) % M32, (c0 + c) % M32, (d0 + d) % M32))
    (1732584193, 4023233417, 2562383102, 271733878)

/-- `hashlib.md5(data).hexdigest()`. -/
def md5Hex (msg : List Nat) : String :=
  match md5Blocks (mdPad msg 64 8 (bytesLE 8 (8 * msg.length))) with
  | (a, b, c, d) =>
    hexOfBytes (bytesLE 4 a ++ bytesLE 4 b ++ bytesLE 4 c ++ bytesLE 4 d)

/-- SHA-1 message schedule: 80 expanded words of a block. -/
def sha1W (block : List Nat) : List Nat :=
  (List.range 64).foldl
    (fun w _ =>
      w ++ [rotl32 ((w.getD (w.length - 3) 0) ^^^ (w.getD (w.length - 8) 0) ^^^
        (w.getD (w.length - 14) 0) ^^^ (w.getD (w.length - 16) 0)) 1])
    ((List.range 16).map (wordBE block))

/-- One SHA-1 round on the state `(a, b, c, d, e)`. -/
def sha1Step (w : List Nat) (st : Nat × Nat × Nat × Nat × Nat) (i : Nat) :
    Nat × Nat × Nat × Nat × Nat :=
  match st with
  | (a, b, c, d, e) =>
    let fk : Nat × Nat :=
      if i < 20 then ((b &&& c) ||| (not32 b &&& d), 1518500249)
      else if i < 40 then (b ^^^ c ^^^ d, 1859775393)
      else if i < 60 then ((b &&& c) ||| (b &&& d) ||| (c &&& d), 2400959708)
      else (b ^^^ c ^^^ d, 3395469782)
    ((rotl32 a 5 + fk.1 + e + fk.2 + w.getD i 0) % M32, a, rotl32 b 30, c, d)

/-- SHA-1 compression over all 64-byte blocks of a padded message. -/
def sha1Blocks (p : List Nat) : Nat × Nat × Nat × Nat × Nat :=
  (List.range (p.length / 64)).foldl
    (fun st i =>
      let w := sha1W ((p.drop (64 * i)).take 64)
      match st, (List.range 80).foldl (sha1Step w) st with
      | (a0, b0, c0, d0, e0), (a, b, c, d, e) =>
        ((a0 + a) % M32, (b0 + b) % M32, (c0 + c) % M32, (d0 + d) % M32,
          (e0 + e) % M32))
    (1732584193, 4023233417, 2562383102, 271733878, 3285377520)

/-- `hashlib.sha1(data).hexdigest()`. -/
def sha1Hex (msg : List Nat) : String :=
  match sha1Blocks (mdPad msg 64 8 (bytesBE 8 (8 * msg.length))) with
  | (a, b, c, d, e) =>
    hexOfBytes (bytesBE 4 a ++ bytesBE 4 b ++ bytesBE 4 c ++ bytesBE 4 d ++
      bytesBE 4 e)

/-- The SHA-256 cube-root-derived round constants. -/
def sha256K : List Nat := [
  1116352408, 1899447441, 3049323471, 3921009573, 961987163, 1508970993,
  2453635748, 2870763221, 3624381080, 310598401, 607225278, 1426881987,
  1925078388, 2162078206, 2614888103, 3248222580, 3835390401, 4022224774,
  264347078, 604807628, 770255983, 1249150122, 1555081692, 1996064986,
  2554220882, 2821834349, 2952996808, 3210313671, 3336571891, 3584528711,
  113926993, 338241895, 666307205, 773529912, 1294757372, 1396182291,
  1695183700, 1986661051, 2177026350, 2456956037, 2730485921, 2820302411,
  3259730800, 3345764771, 3516065817, 3600352804, 4094571909, 275423344,
  430227734, 506948616, 659060556, 883997877, 958139571, 1322822218,
  1537002063, 1747873779, 1955562222, 2024104815, 2227730452, 2361852424,
  2428436474, 2756734187, 3204031479, 3329325298]

/-- SHA-256 message schedule: 64 expanded words of a block. -/
def sha256W (block : List Nat) : List Nat :=
  (List.range 48).foldl
    (fun w _ =>
      let w15 := w.getD (w.length - 15) 0
      let w2 := w.getD (w.length - 2) 0
      let s0 := rotr32 w15 7 ^^^ rotr32 w15 18 ^^^ (w15 >>> 3)
      let s1 := rotr32 w2 17 ^^^ rotr32 w2 19 ^^^ (w2 >>> 10)
      w ++ [(w.getD (w.length - 16) 0 + s0 + w.getD (w.length - 7) 0 + s1) % M32])
    ((List.range 16).map (wordBE block))

/-- SHA-256 state: eight 32-bit words. -/
abbrev Sha8 := Nat × Nat × Nat × Nat × Nat × Nat × Nat × Nat

/-- One SHA-256 round. -/
def sha256Step (w : List Nat) (st : Sha8) (i : Nat) : Sha8 :=
  match st with
  | (a, b, c, d, e, f, g, h) =>
    let s1 := rotr32 e 6 ^^^ rotr32 e 11 ^^^ rotr32 e 25
    let ch := (e &&& f) ^^^ (not32 e &&& g)
    let t1 := (h + s1 + ch + sha256K.getD i 0 + w.getD i 0) % M32
    let s0 := rotr32 a 2 ^^^ rotr32 a 13 ^^^ rotr32 a 22
    let mj := (a &&& b) ^^^ (a &&& c) ^^^ (b &&& c)
    let t2 := (s0 + mj) % M32
    ((t1 + t2) % M32, a, b, c, (d + t1) % M32, e, f, g)

/-- SHA-256 compression over all 64-byte blocks of a padded message. -/
def sha256Blocks (p : List Nat) : Sha8 :=
  (List.range (p.length / 64)).foldl
    (fun st i =>
      let w := sha256W ((p.drop (64 * i)).take 64)
      match st, (List.range 64).foldl (sha256Step w) st with
      | (a0, b0, c0, d0, e0, f0, g0, h0), (a, b, c, d, e, f, g, h) =>
        ((a0 + a) % M32, (b0 + b) % M32, (c0 + c) % M32, (d0 + d) % M32,
          (e0 + e) % M32, (f0 + f) % M32, (g0 + g) % M32, (h0 + h) % M32))
    (1779033703, 3144134277, 1013904242, 2773480762, 1359893119, 2600822924,
      528734635, 1541459225)

/-- `hashlib.sha256(data).hexdigest()`. -/
def sha256Hex (msg : List Nat) : String :=
  match sha256Blocks (mdPad msg 64 8 (bytesBE 8 (8 * msg.length))) with
  | (a, b, c, d, e, f, g, h) =>
    hexOfBytes (bytesBE 4 a ++ bytesBE 4 b ++ bytesBE 4 c ++ bytesBE 4 d ++
      bytesBE 4 e ++ bytesBE 4 f ++ bytesBE 4 g ++ bytesBE 4 h)

/-- The SHA-512 cube-root-derived round constants. -/
def sha512K : List Nat := [
  4794697086780616226, 8158064640168781261, 13096744586834688815,
  16840607885511220156, 4131703408338449720, 6480981068601479193,
  10538285296894168987, 12329834152419229976, 15566598209576043074,
  1334009975649890238, 2608012711638119052, 6128411473006802146,
  8268148722764581231, 9286055187155687089, 11230858885718282805,
  13951009754708518548, 16472876342353939154, 17275323862435702243,
  1135362057144423861, 2597628984639134821, 3308224258029322869,
  5365058923640841347, 6679025012923562964, 8573033837759648693,
  10970295158949994411, 12119686244451234320, 12683024718118986047,
  13788192230050041572, 14330467153632333762, 15395433587784984357,
  489312712824947311, 1452737877330783856, 2861767655752347644,
  3322285676063803686, 5560940570517711597, 5996557281743188959,
  7280758554555802590, 8532644243296465576, 9350256976987008742,
  10552545826968843579, 11727347734174303076, 12113106623233404929,
  14000437183269869457, 14369950271660146224, 15101387698204529176,
  15463397548674623760, 17586052441742319658, 1182934255886127544,
  1847814050463011016, 2177327727835720531, 2830643537854262169,
  3796741975233480872, 4115178125766777443, 5681478168544905931,
  6601373596472566643, 7507060721942968483, 8399075790359081724,
  8693463985226723168, 9568029438360202098, 10144078919501101548,
  10430055236837252648, 11840083180663258601, 13761210420658862357,
  14299343276471374635, 14566680578165727644, 15097957966210449927,
  16922976911328602910, 17689382322260857208, 500013540394364858,
  748580250866718886, 1242879168328830382, 1977374033974150939,
  2944078676154940804, 3659926193048069267, 4368137639120453308,
  4836135668995329356, 5532061633213252278, 6448918945643986474,
  6902733635092675308, 7801388544844847127]

/-- SHA-512 message schedule: 80 expanded 64-bit words of a block. -/
def sha512W (block : List Nat) : List Nat :=
  (List.range 64).foldl
    (fun w _ =>
      let w15 := w.getD (w.length - 15) 0
      let w2 := w.getD (w.length - 2) 0
      let s0 := rotr64 w15 1 ^^^ rotr64 w15 8 ^^^ (w15 >>> 7)
      let s1 := rotr64 w2 19 ^^^ rotr64 w2 61 ^^^ (w2 >>> 6)
      w ++ [(w.getD (w.length - 16) 0 + s0 + w.getD (w.length - 7) 0 + s1) % M64])
    ((List.range 16).map (wordBE64 block))

/-- One SHA-512 round. -/
def sha512Step (w : List Nat) (st : Sha8) (i : Nat) : Sha8 :=
  match st with
  | (a, b, c, d, e, f, g, h) =>
    let s1 := rotr64 e 14 ^^^ rotr64 e 18 ^^^ rotr64 e 41
    let ch := (e &&& f) ^^^ ((e ^^^ (M64 - 1)) &&& g)
    let t1 := (h + s1 + ch + sha512K.getD i 0 + w.getD i 0) % M64
    let s0 := rotr64 a 28 ^^^ rotr64 a 34 ^^^ rotr64 a 39
    let mj := (a &&& b) ^^^ (a &&& c) ^^^ (b &&& c)
    let t2 := (s0 + mj) % M64
    ((t1 + t2) % M64, a, b, c, (d + t1) % M64, e, f, g)

/-- SHA-512 compression over all 128-byte blocks of a padded message. -/
def sha512Blocks (p : List Nat) : Sha8 :=
  (List.range (p.length / 128)).foldl
    (fun st i =>
      let w := sha512W ((p.drop (128 * i)).take 128)
      match st, (List.range 80).foldl (sha512Step w) st with
      | (a0, b0, c0, d0, e0, f0, g0, h0), (a, b, c, d, e, f, g, h) =>
        ((a0 + a) % M64, (b0 + b) % M64, (c0 + c) % M64, (d0 + d) % M64,
          (e0 + e) % M64, (f0 + f) % M64, (g0 + g) % M64, (h0 + h) % M64))
    (7640891576956012808, 13503953896175478587, 4354685564936845355,
      11912009170470909681, 5840696475078001361, 11170449401992604703,
      2270897969802886507, 6620516959819538809)

/-- `hashlib.sha512(data).hexdigest()`. -/
def sha512Hex (msg : List Nat) : String :=
  match sha512Blocks (mdPad msg 128 16 (bytesBE 16 (8 * msg.length))) with
  | (a, b, c, d, e, f, g, h) =>
    hexOfBytes (bytesBE 8 a ++ bytesBE 8 b ++ bytesBE 8 c ++ bytesBE 8 d ++
      bytesBE 8 e ++ bytesBE 8 f ++ bytesBE 8 g ++ bytesBE 8 h)

/-! ## `file_integrity.py`: `FileIntegrityValidator`

A file on disk is modelled by its byte content (`path.read_bytes()`). -/

/-- `SUPPORTED_HASHING_METHODS`: the fixed identifier-to-digest map. -/
def SUPPORTED_HASHING_METHODS : List (String × (List Nat → String)) :=
  [("md5", md5Hex), ("sha1", sha1Hex), ("sha256", sha256Hex),
    ("sha512", sha512Hex)]

/-- `hash_from_bytes`: reject unknown identifiers with `ValueError`, else
apply the digest and render it in hexadecimal.  (The Python error message
interpolates `SUPPORTED_HASHING_METHODS.keys()`; the model keeps the
identifying part of the text.) -/
def hash_from_bytes (method_id : String) (data : List Nat) :
    Except PyError String :=
  match SUPPORTED_HASHING_METHODS.find? (fun m => m.1 == method_id) with
  | none => .error (.valueError ("Unknown method '" ++ method_id ++ "'."))
  | some m => .ok (m.2 data)

/-- `hash_from_file`: hash the file's bytes. -/
def hash_from_file (method_id : String) (fileBytes : List Nat) :
    Except PyError String :=
  hash_from_bytes method_id fileBytes

/-- The validator's instance state (`self.method`, `self.value`). -/
structure FileIntegrityValidator where
  method : Option String
  value : Option String
deriving DecidableEq, Repr

/-- `FileIntegrityValidator.VALIDATOR_TAG`. -/
def FI_TAG : String := "Object Checksum Validator"

/-- Helper: an `INFO` diagnostic from the checksum validator. -/
def fiInfo (body : String) : Diagnostic :=
  { context := .INFO, origin := FI_TAG, body := body }

/-- Helper: an `ERROR` diagnostic from the checksum validator. -/
def fiError (body : String) : Diagnostic :=
  { context := .ERROR, origin := FI_TAG, body := body }

/-- `POSITIVE_RESPONSE`. -/
def FI_POSITIVE_RESPONSE : String := "\x1b[32mChecksum is valid.\x1b[0m"

/-- `NEGATIVE_RESPONSE`. -/
def FI_NEGATIVE_RESPONSE : String := "\x1b[31mChecksum is invalid.\x1b[0m"

/-- `ERROR_DETAIL_RESPONSE.format(expected, found)`. -/
def FI_ERROR_DETAIL (expected found : String) : String :=
  "Validation failed. (Expected '" ++ expected ++ "', but found '" ++
    found ++ "'.)"

/-- Python's string `or`: a `None` or empty first operand yields the
second operand. -/
def pyOrStr : Option String → Option String → Option String
  | some s, b => if s = "" then b else some s
  | none, b => b

/-- `FileIntegrityValidator._get_method(self, method, accept_none)`:
missing-argument and unsupported-identifier checks, then
`method or self.method`.  (The Python message interpolates the whole
`SUPPORTED_HASHING_METHODS` dictionary; the model keeps the identifying
part of the text.) -/
def FileIntegrityValidator.get_method (selfMethod method : Option String)
    (accept_none : Bool) : Except PyError (Option String) :=
  if !accept_none && method.isNone && selfMethod.isNone then
    .error (.valueError "Missing required argument 'method'.")
  else if method.isSome &&
      !(SUPPORTED_HASHING_METHODS.any fun m => some m.1 == method) then
    .error (.valueError ("Value '" ++ method.getD "" ++
      "' for 'method' not allowed."))
  else
    .ok (pyOrStr method selfMethod)

/-- `FileIntegrityValidator.__init__`: `self.method` starts as `None`
and is set through `_get_method(method, True)` (which may raise
`ValueError`); `self.value` is stored unchecked. -/
def FileIntegrityValidator.init (method value : Option String) :
    Except PyError FileIntegrityValidator :=
  match FileIntegrityValidator.get_method none method true with
  | .error e => .error e
  | .ok m => .ok { method := m, value := value }

/-- `FileIntegrityValidator.validate_file` (the `report_back` printing is
omitted).  The `none` case of the resolved method cannot occur after
`_get_method(..., accept_none=False)`; it is mapped to the same
unsupported-method `ValueError` that Python's
`None not in SUPPORTED_HASHING_METHODS` check produces. -/
def FileIntegrityValidator.validate_file (v : FileIntegrityValidator)
    (fileBytes : List Nat) (method value : Option String) :
    Logger × Except PyError Nat :=
  match FileIntegrityValidator.get_method v.method method false with
  | .error e => ([], .error e)
  | .ok m =>
    match pyOrStr value v.value with
    | none => ([], .error (.valueError "Missing required argument 'value'."))
    | some val =>
      match hash_from_file (m.getD "") fileBytes with
      | .error e => ([], .error e)
      | .ok hashed =>
        let log : Logger :=
          if hashed = val then [fiInfo FI_POSITIVE_RESPONSE]
          else [fiInfo FI_NEGATIVE_RESPONSE,
            fiError (FI_ERROR_DETAIL val hashed)]
        if log.hasError then
          (log, .error (.payloadIntegrityValidationError "Invalid file."))
        else
          (log, .ok 0)

/-! ## `file_format.py`: `FileFormatValidator`

The external `fido` type identification is a collaborator: a `File`
carries the identified MIME type (`none` models an identification
failure).  A plugin is its tag plus its `validate_file_format` operation,
which returns an exit code and the diagnostics it logged. -/

/-- The `File` record class (path plus identified MIME type). -/
structure FFile where
  file_path : String
  file_type : Option String
deriving DecidableEq, Repr

/-- A file-format validator plugin (the `FileFormatValidatorInterface`
surface used by the engine). -/
structure FileFormatPlugin where
  VALIDATOR_TAG : String
  validate_file_format : String → String → Nat × Logger

/-- A MIME-type selector: a list of types or a regex (the two shapes
accepted by `FileFormatValidator.__init__`). -/
inductive TypeSelector where
  | ofList (types : List String) : TypeSelector
  | ofRegex (pattern : String) : TypeSelector

/-- Python's `str(list_of_strings)` rendering, used in warning texts. -/
def pyStrList (l : List String) : String :=
  "[" ++ joinSep ", " (l.map fun s => "'" ++ s ++ "'") ++ "]"

/-- `FileFormatValidator.VALIDATOR_TAG`. -/
def FF_TAG : String := "File Format Validator"

/-- `POSITIVE_RESPONSE`. -/
def FF_POSITIVE_RESPONSE : String := "\x1b[32mFile formats are valid.\x1b[0m"

/-- `NEGATIVE_RESPONSE`. -/
def FF_NEGATIVE_RESPONSE : String := "\x1b[31mFile formats are invalid.\x1b[0m"

/-- The `ERROR` logged when `fido` cannot identify a file. -/
def ffUnidentifiedError (f : FFile) : Diagnostic :=
  { context := .ERROR, origin := FF_TAG,
    body := "Unable to analyze file '" ++ f.file_path ++ "' using fido." }

/-- The `WARNING` logged when a plugin's selector does not cover the
file's type (origin is the plugin's tag). -/
def ffUncoveredWarning (tag : String) (f : FFile) (ftype selectorText : String) :
    Diagnostic :=
  { context := .WARNING, origin := tag,
    body := "File '" ++ f.file_path ++ "' is left unchecked; no match for '" ++
      ftype ++ "' in " ++ selectorText }

/-- Does a selector cover a MIME type (list membership, or
`re.fullmatch` for a regex selector)? -/
def selectorMatches (sel : TypeSelector) (ftype : String) : Bool :=
  match sel with
  | .ofList types => types.contains ftype
  | .ofRegex pattern => re_fullmatch pattern ftype

/-- The selector description interpolated into the warning text. -/
def selectorText (sel : TypeSelector) : String :=
  match sel with
  | .ofList types => "list of types '" ++ pyStrList types ++ "'"
  | .ofRegex pattern => "file type regex '" ++ pattern ++ "'"

/-- One iteration of the validator loop in
`FileFormatValidator.validate_file`: an uncovered selector logs a
`WARNING` and leaves the exit code; a covered one runs the plugin,
merges its log and turns the exit code to `1` on a nonzero verdict. -/
def ffProcessValidator (f : FFile) (ftype : String) (acc : Logger × Nat)
    (vt : TypeSelector × FileFormatPlugin) : Logger × Nat :=
  if selectorMatches vt.1 ftype then
    let r := vt.2.validate_file_format f.file_path ftype
    (acc.1 ++ r.2, if r.1 ≠ 0 then 1 else acc.2)
  else
    (acc.1 ++ [ffUncoveredWarning vt.2.VALIDATOR_TAG f ftype (selectorText vt.1)],
      acc.2)

/-- The body of `FileFormatValidator.validate_file` up to `_finalize`:
an unidentifiable file is an `ERROR` with exit code `1` (and an early
return); otherwise all registered validators are iterated. -/
def ffValidateFileCore (validators : List (TypeSelector × FileFormatPlugin))
    (f : FFile) : Logger × Nat :=
  match f.file_type with
  | none => ([ffUnidentifiedError f], 1)
  | some ftype => validators.foldl (ffProcessValidator f ftype) ([], 0)

/-- `FileFormatValidator._finalize`: optionally log the `INFO` verdict,
then raise `FileFormatValidationError` iff the exit code is nonzero. -/
def ffFinalize (log : Logger) (exitcode : Nat) (print_log : Bool) :
    Logger × Except PyError Nat :=
  let log2 := log ++
    (if print_log then
      [{ context := .INFO, origin := FF_TAG,
         body := if exitcode = 0 then FF_POSITIVE_RESPONSE
           else FF_NEGATIVE_RESPONSE }]
    else [])
  if exitcode ≠ 0 then
    (log2, .error (.fileFormatValidationError
      ("At least one error occurred during file format validation: " ++
        Logger.flattened log2)))
  else
    (log2, .ok exitcode)

/-- `FileFormatValidator.validate_file` with the default arguments
(`clear_report=True`, `log_summary=True`): note that the unidentifiable
case returns exit code `1` directly, before `_finalize` can raise. -/
def FileFormatValidator.validate_file
    (validators : List (TypeSelector × FileFormatPlugin)) (f : FFile) :
    Logger × Except PyError Nat :=
  match f.file_type with
  | none => ([ffUnidentifiedError f], .ok 1)
  | some _ =>
    let r := ffValidateFileCore validators f
    ffFinalize r.1 r.2 true

/-- `FileFormatValidator.validate_bag`: every payload file is run
through `validate_file(file, report_back=False, clear_report=False,
log_summary=False)` whose `FileFormatValidationError` is caught and
turned into a per-file exit code of `1`; because the log is shared
(`clear_report=False`), each file's diagnostics are retained;
`_finalize` then logs the verdict and raises iff some file failed. -/
def FileFormatValidator.validate_bag
    (validators : List (TypeSelector × FileFormatPlugin))
    (files : List FFile) : Logger × Except PyError Nat :=
  let perFile := files.map (ffValidateFileCore validators)
  let log := (perFile.map Prod.fst).flatten
  let exitcode := if perFile.any (fun r => r.2 ≠ 0) then 1 else 0
  ffFinalize log exitcode true

/-! ## `payload_integrity.py`: `PayloadIntegrityValidator`

The external `bagit` library performs the actual checks; the model
abstracts its outcomes: bag construction either succeeds, fails with a
`BagError` whose message mentions the missing `bagit.txt`, or fails with
another `BagError`; each of the three internal validation steps either
succeeds or fails with a `BagError` (a list of message lines) or a
`ValueError`. -/

/-- Outcome of `bagit.Bag(bag_path)`. -/
inductive BagInit where
  | ok : BagInit
  | missingBagitTxt : BagInit
  | otherBagError (msg : String) : BagInit
deriving DecidableEq, Repr

/-- Outcome of one internal `bagit` validation step. -/
inductive BagStep where
  | ok : BagStep
  | bagError (lines : List String) : BagStep
  | valueError : BagStep
deriving DecidableEq, Repr

/-- `PayloadIntegrityValidator.VALIDATOR_TAG`. -/
def PI_TAG : String := "Payload Integrity Validator"

/-- Helper: a diagnostic from the payload-integrity validator. -/
def piDiag (ctx : Context) (body : String) : Diagnostic :=
  { context := ctx, origin := PI_TAG, body := body }

/-- `NEGATIVE_RESPONSE_BAGITTXT`. -/
def PI_NEG_BAGITTXT : String :=
  "\x1b[31mDirectory does not contain required file 'bagit.txt'.\x1b[0m"

/-- `NEGATIVE_RESPONSE_BAGITTXT_INFO`. -/
def PI_NEG_BAGITTXT_INFO : String :=
  "\x1b[31mNo valid bag instance, can't proceed with checksum validation.\x1b[0m"

/-- `POSITIVE_RESPONSE`. -/
def PI_POSITIVE_RESPONSE : String :=
  "\x1b[32mBag's payload checksums conform to manifest information.\x1b[0m"

/-- `NEGATIVE_RESPONSE`. -/
def PI_NEGATIVE_RESPONSE : String :=
  "\x1b[31mBag's payload checksums do not conform to manifest information or missing files.\x1b[0m"

/-- The diagnostics logged for one `bagit` validation step. -/
def piStepLog : BagStep → Logger
  | .ok => []
  | .bagError lines =>
    lines.map fun line => piDiag .ERROR
      ⟨(((line.data.dropWhile fun c => "WARNING".data.contains c).reverse.dropWhile
        fun c => "WARNING".data.contains c).reverse)⟩
  | .valueError => [piDiag .ERROR "Bad input for some internal bagit-method."]

/-- `PayloadIntegrityValidator.validate_bag`, abstracted over the
`bagit` outcomes: a missing `bagit.txt` is handled (exit code `1`), any
other `BagError` from bag construction is re-raised as-is; with a bag
instance the three steps run without short-circuiting and a nonzero
exit raises `PayloadIntegrityValidationError`. -/
def PayloadIntegrityValidator.validate_bag (bagInit : BagInit)
    (steps : List BagStep) : Logger × Except PyError Nat :=
  match bagInit with
  | .otherBagError msg => ([], .error (.bagitBagError msg))
  | .missingBagitTxt =>
    let log : Logger := [piDiag .ERROR PI_NEG_BAGITTXT,
      piDiag .INFO PI_NEG_BAGITTXT_INFO]
    (log, .error (.payloadIntegrityValidationError
      ("At least one error occurred during payload integrity validation: " ++
        Logger.flattened log)))
  | .ok =>
    let stepsLog := (steps.map piStepLog).flatten
    let failed := steps.any fun s => s ≠ BagStep.ok
    let log := stepsLog ++
      [piDiag .INFO (if failed then PI_NEGATIVE_RESPONSE else PI_POSITIVE_RESPONSE)]
    if failed then
      (log, .error (.payloadIntegrityValidationError
        ("At least one error occurred during payload integrity validation: " ++
          Logger.flattened log)))
    else
      (log, .ok 0)

/-! ## Concrete instances used by scenario claims and witnesses -/

/-- The profile of the spec's concrete scenario:
`{required: ["required_directory"],
  allowed: ["required_directory", {regex: "optional_directory/\\d+"}]}`. -/
def scenarioProfile : PSProfile :=
  { payloadFoldersAllowed :=
      some [.lit "required_directory", .rgx "optional_directory/\\d+"],
    payloadFoldersRequired := some ["required_directory"] }

/-- The conformant payload of the concrete scenario. -/
def scenarioBagGood : Bag :=
  { payloadFiles :=
      ["required_directory/dummy.txt", "optional_directory/4/dummy.doc"],
    payloadDirs := [] }

/-- The scenario payload with `optional_directory/4a/dummy.doc` added. -/
def scenarioBagBad : Bag :=
  { payloadFiles :=
      ["required_directory/dummy.txt", "optional_directory/4/dummy.doc",
        "optional_directory/4a/dummy.doc"],
    payloadDirs := [] }

/-- The pattern string, compiled, matches the whole string (the
"full match" reading of rule matching). -/
def patMatchesWhole (pattern s : String) : Prop :=
  ∃ re, parseRegex pattern = some re ∧ re.RMatches s.data

/-- The recomputed digest for a supported method identifier (the
lookup `SUPPORTED_HASHING_METHODS[method_id](data).hexdigest()`). -/
def applyHash (method_id : String) (data : List Nat) : String :=
  match SUPPORTED_HASHING_METHODS.find? (fun m => m.1 == method_id) with
  | some m => m.2 data
  | none => ""

/-- Plugins that log an `ERROR` only together with a nonzero verdict
(the plugin contract assumed by the aggregation rule). -/
def PluginsWellBehaved (vs : List (TypeSelector × FileFormatPlugin)) : Prop :=
  ∀ vt ∈ vs, ∀ path t, (vt.2.validate_file_format path t).1 = 0 →
    Logger.hasError (vt.2.validate_file_format path t).2 = false

/-- A plugin that always passes, for concrete instantiations. -/
def pluginPass : FileFormatPlugin :=
  { VALIDATOR_TAG := "Pass Plugin", validate_file_format := fun _ _ => (0, []) }

/-- The diagnostic logged by the always-failing demo plugin. -/
def pluginFailDiag (path : String) : Diagnostic :=
  { context := .ERROR, origin := "Fail Plugin",
    body := "File '" ++ path ++ "' is invalid." }

/-- A plugin that always fails with one `ERROR`, for concrete
instantiations. -/
def pluginFail : FileFormatPlugin :=
  { VALIDATOR_TAG := "Fail Plugin",
    validate_file_format := fun path _ => (1, [pluginFailDiag path]) }

/-! ## Correctness of the regex engine -/

/-- Inversion: `epsilon` only matches the empty string. -/
theorem Regex.epsilon_inv {w : List Char} (h : Regex.RMatches .epsilon w) :
    w = [] := by
  cases h; rfl

/-- Inversion: a character class only matches single characters. -/
theorem Regex.cls_inv {p : Char → Bool} {w : List Char}
    (h : Regex.RMatches (.cls p) w) : ∃ c, w = [c] ∧ p c = true := by
  cases h with
  | cls hp => exact ⟨_, rfl, hp⟩

/-- Inversion: `Regex.nothing` matches nothing. -/
theorem Regex.nothing_inv {w : List Char}
    (h : Regex.RMatches Regex.nothing w) : False := by
  simp only [Regex.nothing] at h
  obtain ⟨c, -, hp⟩ := Regex.cls_inv h
  exact Bool.false_ne_true hp

/-- Inversion for `seq`. -/
theorem Regex.seq_inv {r1 r2 : Regex} {w : List Char}
    (h : Regex.RMatches (.seq r1 r2) w) :
    ∃ s1 s2, w = s1 ++ s2 ∧ Regex.RMatches r1 s1 ∧ Regex.RMatches r2 s2 := by
  cases h with
  | seq h1 h2 => exact ⟨_, _, rfl, h1, h2⟩

/-- Inversion for `alt`. -/
theorem Regex.alt_inv {r1 r2 : Regex} {w : List Char}
    (h : Regex.RMatches (.alt r1 r2) w) :
    Regex.RMatches r1 w ∨ Regex.RMatches r2 w := by
  cases h with
  | altL h => exact Or.inl h
  | altR h => exact Or.inr h

/-- `nullable` decides membership of the empty string. -/
theorem Regex.nullable_iff (r : Regex) :
    r.nullable = true ↔ r.RMatches [] := by
  induction r with
  | epsilon => exact ⟨fun _ => .epsilon, fun _ => rfl⟩
  | cls p =>
    constructor
    · intro h; exact absurd h (by simp [nullable])
    · intro h
      obtain ⟨c, hc, -⟩ := Regex.cls_inv h
      exact absurd hc (by simp)
  | seq r1 r2 ih1 ih2 =>
    simp only [nullable, Bool.and_eq_true, ih1, ih2]
    constructor
    · rintro ⟨h1, h2⟩
      exact Regex.RMatches.seq h1 h2
    · intro h
      obtain ⟨s1, s2, heq, h1, h2⟩ := Regex.seq_inv h
      obtain ⟨rfl, rfl⟩ := List.append_eq_nil.mp heq.symm
      exact ⟨h1, h2⟩
  | alt r1 r2 ih1 ih2 =>
    simp only [nullable, Bool.or_eq_true, ih1, ih2]
    constructor
    · rintro (h | h)
      · exact Regex.RMatches.altL h
      · exact Regex.RMatches.altR h
    · intro h
      exact Regex.alt_inv h
  | star r ih =>
    exact ⟨fun _ => .starNil, fun _ => rfl⟩

/-- Inversion for a star matching a nonempty string: some nonempty
first iteration starts with the first character. -/
theorem Regex.star_cons_inv {t : Regex} {w : List Char}
    (ht : Regex.RMatches t w) :
    ∀ {r : Regex} {c : Char} {s : List Char}, t = .star r → w = c :: s →
      ∃ u v, s = u ++ v ∧ Regex.RMatches r (c :: u) ∧
        Regex.RMatches (.star r) v := by
  induction ht with
  | epsilon => intro r c s h _; exact absurd h (by simp)
  | cls _ => intro r c s h _; exact absurd h (by simp)
  | seq _ _ _ _ => intro r c s h _; exact absurd h (by simp)
  | altL _ _ => intro r c s h _; exact absurd h (by simp)
  | altR _ _ => intro r c s h _; exact absurd h (by simp)
  | starNil => intro r c s _ hw; exact absurd hw (by simp)
  | @starCons r0 s1 s2 h1 h2 ih1 ih2 =>
    intro r c s heq hw
    obtain rfl : r0 = r := by injection heq
    cases s1 with
    | nil =>
      simp only [List.nil_append] at hw
      exact ih2 rfl hw
    | cons c1 s1 =>
      simp only [List.cons_append, List.cons.injEq] at hw
      obtain ⟨rfl, hs⟩ := hw
      exact ⟨s1, s2, hs.symm, h1, h2⟩

/-- The Brzozowski derivative is correct for `RMatches`. -/
theorem Regex.deriv_iff (r : Regex) (c : Char) :
    ∀ s : List Char, (r.deriv c).RMatches s ↔ r.RMatches (c :: s) := by
  induction r with
  | epsilon =>
    intro s
    simp only [deriv]
    constructor
    · intro h; exact absurd h (fun h => Regex.nothing_inv h)
    · intro h; exact absurd (Regex.epsilon_inv h) (by simp)
  | cls p =>
    intro s
    simp only [deriv]
    by_cases hp : p c = true
    · simp only [hp, if_true]
      constructor
      · intro h
        obtain rfl := Regex.epsilon_inv h
        exact Regex.RMatches.cls hp
      · intro h
        obtain ⟨c0, hc, -⟩ := Regex.cls_inv h
        obtain ⟨rfl, rfl⟩ := (List.cons.injEq .. ▸ hc : c = c0 ∧ s = [])
        exact Regex.RMatches.epsilon
    · simp only [hp, if_false]
      constructor
      · intro h; exact absurd h (fun h => Regex.nothing_inv h)
      · intro h
        obtain ⟨c0, hc, hp0⟩ := Regex.cls_inv h
        obtain ⟨rfl, rfl⟩ := (List.cons.injEq .. ▸ hc : c = c0 ∧ s = [])
        exact absurd hp0 hp
  | seq r1 r2 ih1 ih2 =>
    intro s
    simp only [deriv]
    by_cases hn : r1.nullable = true
    · simp only [hn, if_true]
      constructor
      · intro h
        rcases Regex.alt_inv h with h | h
        · obtain ⟨s1, s2, rfl, h1, h2⟩ := Regex.seq_inv h
          simpa using Regex.RMatches.seq ((ih1 s1).mp h1) h2
        · simpa using
            Regex.RMatches.seq ((Regex.nullable_iff r1).mp hn) ((ih2 s).mp h)
      · intro h
        obtain ⟨s1, s2, heq, h1, h2⟩ := Regex.seq_inv h
        rcases List.append_eq_cons_iff.mp heq.symm with ⟨rfl, rfl⟩ | ⟨a, rfl, rfl⟩
        · exact Regex.RMatches.altR ((ih2 s).mpr h2)
        · exact Regex.RMatches.altL (Regex.RMatches.seq ((ih1 a).mpr h1) h2)
    · simp only [hn, if_false]
      constructor
      · intro h
        obtain ⟨s1, s2, rfl, h1, h2⟩ := Regex.seq_inv h
        simpa using Regex.RMatches.seq ((ih1 s1).mp h1) h2
      · intro h
        obtain ⟨s1, s2, heq, h1, h2⟩ := Regex.seq_inv h
        rcases List.append_eq_cons_iff.mp heq.symm with ⟨rfl, rfl⟩ | ⟨a, rfl, rfl⟩
        · exact absurd ((Regex.nullable_iff r1).mpr h1) hn
        · exact Regex.RMatches.seq ((ih1 a).mpr h1) h2
  | alt r1 r2 ih1 ih2 =>
    intro s
    simp only [deriv]
    constructor
    · intro h
      rcases Regex.alt_inv h with h | h
      · exact Regex.RMatches.altL ((ih1 s).mp h)
      · exact Regex.RMatches.altR ((ih2 s).mp h)
    · intro h
      rcases Regex.alt_inv h with h | h
      · exact Regex.RMatches.altL ((ih1 s).mpr h)
      · exact Regex.RMatches.altR ((ih2 s).mpr h)
  | star r ih =>
    intro s
    simp only [deriv]
    constructor
    · intro h
      obtain ⟨s1, s2, rfl, h1, h2⟩ := Regex.seq_inv h
      simpa using Regex.RMatches.starCons ((ih s1).mp h1) h2
    · intro h
      obtain ⟨u, v, rfl, hu, hv⟩ := Regex.star_cons_inv h rfl rfl
      exact Regex.RMatches.seq ((ih u).mpr hu) hv

/-- `matchWhole` decides language membership. -/
theorem Regex.matchWhole_iff (r : Regex) (s : List Char) :
    r.matchWhole s = true ↔ r.RMatches s := by
  induction s generalizing r with
  | nil => exact Regex.nullable_iff r
  | cons c cs ih =>
    simpa only [matchWhole, List.foldl_cons] using
      (ih (r.deriv c)).trans (Regex.deriv_iff r c cs)

/-- `matchStart` succeeds iff the regex matches some prefix of the
string (the start-anchored `re.match` behavior). -/
theorem Regex.matchStart_iff (r : Regex) (s : List Char) :
    r.matchStart s = true ↔ ∃ u v, s = u ++ v ∧ r.RMatches u := by
  induction s generalizing r with
  | nil =>
    simp only [matchStart, Regex.nullable_iff]
    constructor
    · intro h; exact ⟨[], [], rfl, h⟩
    · rintro ⟨u, v, huv, hu⟩
      obtain ⟨rfl, -⟩ := List.append_eq_nil.mp huv.symm
      exact hu
  | cons c cs ih =>
    simp only [matchStart, Bool.or_eq_true, Regex.nullable_iff, ih]
    constructor
    · rintro (h | ⟨u, v, rfl, hu⟩)
      · exact ⟨[], c :: cs, rfl, h⟩
      · exact ⟨c :: u, v, rfl, (Regex.deriv_iff r c u).mp hu⟩
    · rintro ⟨u, v, huv, hu⟩
      rcases List.append_eq_cons_iff.mp huv.symm with ⟨rfl, rfl⟩ | ⟨a, rfl, rfl⟩
      · exact Or.inl hu
      · exact Or.inr ⟨a, v, rfl, (Regex.deriv_iff r c a).mpr hu⟩

/-! ## Path normalization lemmas -/

/-- `splitSlash` always yields at least one component. -/
theorem splitSlash_ne_nil : ∀ l : List Char, splitSlash l ≠ []
  | [] => by simp [splitSlash]
  | c :: rest => by
    simp only [splitSlash]
    by_cases hc : c = '/'
    · simp [hc]
    · simp only [if_neg hc]
      cases h : splitSlash rest <;> simp

/-- Appending a trailing separator appends one empty component. -/
theorem splitSlash_append_slash (l : List Char) :
    splitSlash (l ++ ['/']) = splitSlash l ++ [[]] := by
  induction l with
  | nil => simp [splitSlash]
  | cons c rest ih =>
    simp only [List.cons_append, splitSlash, List.append_eq]
    by_cases hc : c = '/'
    · simp [hc, ih]
    · simp only [if_neg hc]
      rw [ih]
      cases h : splitSlash rest with
      | nil => exact absurd h (splitSlash_ne_nil rest)
      | cons comp comps => simp

/-- Appending a separator and one character appends one singleton
component. -/
theorem splitSlash_append_slash_cons (l : List Char) (c2 : Char)
    (h2 : c2 ≠ '/') :
    splitSlash (l ++ ['/', c2]) = splitSlash l ++ [[c2]] := by
  induction l with
  | nil => simp [splitSlash, h2]
  | cons c rest ih =>
    simp only [List.cons_append, splitSlash, List.append_eq]
    by_cases hc : c = '/'
    · simp [hc, ih]
    · simp only [if_neg hc]
      rw [ih]
      cases h : splitSlash rest with
      | nil => exact absurd h (splitSlash_ne_nil rest)
      | cons comp comps => simp

/-- A trailing separator does not change the path components. -/
theorem pathParts_append_slash (l : List Char) :
    pathParts (l ++ ['/']) = pathParts l := by
  simp [pathParts, splitSlash_append_slash, List.filter_append]

/-- A trailing separator plus one ordinary character appends one
component. -/
theorem pathParts_append_slash_cons (l : List Char) (c2 : Char)
    (h2 : c2 ≠ '/') (h3 : c2 ≠ '.') :
    pathParts (l ++ ['/', c2]) = pathParts l ++ [[c2]] := by
  simp [pathParts, splitSlash_append_slash_cons l c2 h2, List.filter_append,
    h3]

/-- Joining after appending one component appends a separated chunk. -/
theorem joinSlash_append_singleton :
    ∀ (parts : List (List Char)) (comp : List Char), parts ≠ [] →
      joinSlash (parts ++ [comp]) = joinSlash parts ++ '/' :: comp
  | [], _, h => absurd rfl h
  | [p], comp, _ => by simp [joinSlash]
  | p :: q :: qs, comp, _ => by
    have hrec := joinSlash_append_singleton (q :: qs) comp (by simp)
    simp only [List.cons_append] at hrec
    simp only [List.cons_append, joinSlash, List.append_eq, hrec,
      List.append_assoc]

/-- Extending a separator-terminated path by one character changes its
normalized form. -/
theorem as_posix_slash_extend (s : String) :
    as_posix ((s ++ "/") ++ "x") ≠ as_posix (s ++ "/") := by
  have hd1 : (s ++ "/").data = s.data ++ ['/'] := by
    simp [String.data_append]
  have hd2 : ((s ++ "/") ++ "x").data = s.data ++ ['/', 'x'] := by
    simp [String.data_append]
  simp only [as_posix, hd1, hd2, pathParts_append_slash,
    pathParts_append_slash_cons s.data 'x' (by decide) (by decide)]
  cases hP : pathParts s.data with
  | nil => decide
  | cons p ps =>
    simp only [List.cons_append]
    intro hEq
    have hdata : joinSlash (p :: (ps ++ [['x']])) = joinSlash (p :: ps) :=
      String.ext_iff.mp hEq
    have hrec := joinSlash_append_singleton (p :: ps) ['x'] (by simp)
    simp only [List.cons_append] at hrec
    rw [hrec] at hdata
    have hlen := congrArg List.length hdata
    simp at hlen

/-! ## Capitalization-collision lemmas -/

/-- Counting collisions per lowercase form: a form already in `checked`
contributes one collision per occurrence, a new form one less than its
number of occurrences. -/
theorem capCollisions_countP (files : List String) :
    ∀ (checked : List (String × String)) (k : String),
      (capCollisions files checked).countP (fun c => (strLower c.1) == k) =
        if (checked.find? (fun kv => kv.1 == k)).isSome then
          files.countP (fun f => (strLower f) == k)
        else
          files.countP (fun f => (strLower f) == k) - 1 := by
  induction files with
  | nil => intro checked k; simp [capCollisions]
  | cons f rest ih =>
    intro checked k
    simp only [capCollisions]
    cases hfind : checked.find? (fun kv => kv.1 == (strLower f)) with
    | some kv =>
      simp only [List.countP_cons, ih checked k]
      by_cases hk : (strLower f) = k
      · subst hk
        simp [hfind]
      · have hbeq : ((strLower f) == k) = false := by simpa using hk
        simp [hbeq]
    | none =>
      rw [ih (((strLower f), f) :: checked) k]
      by_cases hk : (strLower f) = k
      · subst hk
        rw [List.find?_cons_of_pos _ (by simp)]
        simp [hfind, List.countP_cons]
      · have hbeq : ((strLower f) == k) = false := by simpa using hk
        rw [List.find?_cons_of_neg _ (by simpa using hk)]
        simp [List.countP_cons, hbeq]

/-- Every collision pair names an offending path from the file list and,
when its lowercase form was not pre-seeded in `checked`, the first
occurrence of that lowercase form in the list. -/
theorem capCollisions_pair (files : List String) :
    ∀ (checked : List (String × String)) (c : String × String),
      c ∈ capCollisions files checked →
      c.1 ∈ files ∧
      ((∃ kv, checked.find? (fun kv => kv.1 == (strLower c.1)) = some kv ∧
          c.2 = kv.2) ∨
        (checked.find? (fun kv => kv.1 == (strLower c.1)) = none ∧
          files.find? (fun f => (strLower f) == (strLower c.1)) = some c.2)) := by
  induction files with
  | nil => intro checked c h; simp [capCollisions] at h
  | cons f rest ih =>
    intro checked c hc
    simp only [capCollisions] at hc
    cases hfind : checked.find? (fun kv => kv.1 == (strLower f)) with
    | some kv =>
      rw [hfind] at hc
      rcases List.mem_cons.mp hc with rfl | hc2
      · exact ⟨List.mem_cons_self .., Or.inl ⟨kv, hfind, rfl⟩⟩
      · obtain ⟨hmem, hrest⟩ := ih checked c hc2
        refine ⟨List.mem_cons_of_mem f hmem, ?_⟩
        rcases hrest with ⟨kv2, hkv2, he⟩ | ⟨hnone, hfound⟩
        · exact Or.inl ⟨kv2, hkv2, he⟩
        · refine Or.inr ⟨hnone, ?_⟩
          have hne : ((strLower f) == (strLower c.1)) = false := by
            by_contra hcon
            have hb : ((strLower f) == (strLower c.1)) = true := by simpa using hcon
            have hfc : (strLower f) = (strLower c.1) := by simpa using hb
            rw [hfc] at hfind
            rw [hnone] at hfind
            exact Option.noConfusion hfind
          rw [List.find?_cons]
          simp only [hne]
          exact hfound
    | none =>
      rw [hfind] at hc
      obtain ⟨hmem, hrest⟩ := ih (((strLower f), f) :: checked) c hc
      refine ⟨List.mem_cons_of_mem f hmem, ?_⟩
      rcases hrest with ⟨kv2, hkv2, he⟩ | ⟨hnone, hfound⟩
      · rw [List.find?_cons] at hkv2
        by_cases heq : ((strLower f) == (strLower c.1)) = true
        · simp only [heq] at hkv2
          obtain rfl : kv2 = ((strLower f), f) := by
            injection hkv2 with h
            exact h.symm
          refine Or.inr ⟨?_, ?_⟩
          · have hc1 : (strLower c.1) = (strLower f) := (beq_iff_eq.mp heq).symm
            rw [hc1]
            exact hfind
          · rw [List.find?_cons]
            simp only [heq]
            simp [he]
        · have heqf : ((strLower f) == (strLower c.1)) = false :=
            Bool.eq_false_iff.mpr heq
          simp only [heqf] at hkv2
          exact Or.inl ⟨kv2, hkv2, he⟩
      · rw [List.find?_cons] at hnone
        by_cases heq : ((strLower f) == (strLower c.1)) = true
        · simp only [heq] at hnone
          exact absurd hnone (by simp)
        · have heqf : ((strLower f) == (strLower c.1)) = false :=
            Bool.eq_false_iff.mpr heq
          simp only [heqf] at hnone
          refine Or.inr ⟨hnone, ?_⟩
          rw [List.find?_cons]
          simp only [heqf]
          exact hfound

/-! ## Sub-check and dispatch lemmas -/

/-- A passing allowed/required reconciliation logs nothing. -/
theorem vpda_pass_log (required allowed : List PayloadFolderDict)
    (h : (validate_payload_directories_allowed required allowed).1 = true) :
    (validate_payload_directories_allowed required allowed).2 = [] := by
  simp only [validate_payload_directories_allowed] at h ⊢
  rw [List.isEmpty_iff.mp h]
  rfl

/-- A passing required-existence check logs nothing. -/
theorem vpdr_pass_log (profile : PSProfile) (bag : Bag)
    (h : (validate_payload_directories_required profile bag).1 = true) :
    (validate_payload_directories_required profile bag).2 = [] := by
  cases hp : profile.payloadFoldersRequired with
  | none => simp [validate_payload_directories_required, hp]
  | some dirs =>
    simp only [validate_payload_directories_required, hp] at h ⊢
    rw [List.isEmpty_iff.mp h]
    rfl

/-- A passing file-placement check logs nothing. -/
theorem vpdf_pass_log (profile : PSProfile) (allowed : List PayloadFolderDict)
    (bag : Bag)
    (h : (validate_payload_dir_files profile allowed bag).1 = true) :
    (validate_payload_dir_files profile allowed bag).2 = [] := by
  cases hp : profile.payloadFoldersAllowed with
  | none => simp [validate_payload_dir_files, hp]
  | some entries =>
    simp only [validate_payload_dir_files, hp] at h ⊢
    rw [List.isEmpty_iff.mp h]
    rfl

/-- A passing capitalization check logs nothing. -/
theorem vpfc_pass_log (bag : Bag)
    (h : (validate_payload_files_capitalization bag).1 = true) :
    (validate_payload_files_capitalization bag).2 = [] := by
  simp only [validate_payload_files_capitalization] at h ⊢
  rw [List.isEmpty_iff.mp h]
  rfl

/-- `_finalize` raises iff the exit code is nonzero. -/
theorem ffFinalize_error_iff (log : Logger) (exitcode : Nat) (b : Bool) :
    (∃ e, (ffFinalize log exitcode b).2 = Except.error e) ↔ exitcode ≠ 0 := by
  simp only [ffFinalize]
  by_cases h : exitcode ≠ 0
  · simp [h]
  · simp [h]

/-- The exit code accumulated by the validator loop is nonzero iff it
started nonzero or some applicable plugin returned a nonzero verdict. -/
theorem ffFold_exit (f : FFile) (t : String) :
    ∀ (vs : List (TypeSelector × FileFormatPlugin)) (acc : Logger × Nat),
      ((vs.foldl (ffProcessValidator f t) acc).2 ≠ 0) ↔
        (acc.2 ≠ 0 ∨ ∃ vt ∈ vs, selectorMatches vt.1 t = true ∧
          (vt.2.validate_file_format f.file_path t).1 ≠ 0) := by
  intro vs
  induction vs with
  | nil => intro acc; simp
  | cons vt rest ih =>
    intro acc
    simp only [List.foldl_cons]
    rw [ih]
    simp only [ffProcessValidator]
    by_cases hsel : selectorMatches vt.1 t = true
    · simp only [hsel, if_true]
      by_cases hcode : (vt.2.validate_file_format f.file_path t).1 ≠ 0
      · simp [hcode, hsel]
      · simp only [ne_eq, not_not] at hcode
        simp [hcode, hsel]
    · have hsel2 : selectorMatches vt.1 t = false := Bool.eq_false_iff.mpr hsel
      simp [hsel2]

/-- If no selector covers the type, the loop emits exactly one warning
per registered validator and leaves the exit code unchanged. -/
theorem ffFold_unmatched (f : FFile) (t : String) :
    ∀ (vs : List (TypeSelector × FileFormatPlugin)) (acc : Logger × Nat),
      (∀ vt ∈ vs, selectorMatches vt.1 t = false) →
      vs.foldl (ffProcessValidator f t) acc =
        (acc.1 ++ vs.map (fun vt =>
          ffUncoveredWarning vt.2.VALIDATOR_TAG f t (selectorText vt.1)),
          acc.2) := by
  intro vs
  induction vs with
  | nil => intro acc h; simp
  | cons vt rest ih =>
    intro acc h
    have hsel : selectorMatches vt.1 t = false := h vt (List.mem_cons_self ..)
    simp only [List.foldl_cons, ffProcessValidator, hsel]
    rw [ih _ (fun vt2 h2 => h vt2 (List.mem_cons_of_mem vt h2))]
    simp

/-- If the loop ends with exit code `0` and the plugins are
well-behaved, the accumulated log contains no `ERROR`. -/
theorem ffFold_noError (f : FFile) (t : String) :
    ∀ (vs : List (TypeSelector × FileFormatPlugin)) (acc : Logger × Nat),
      PluginsWellBehaved vs →
      Logger.hasError acc.1 = false →
      ((vs.foldl (ffProcessValidator f t) acc).2 = 0) →
      Logger.hasError (vs.foldl (ffProcessValidator f t) acc).1 = false := by
  intro vs
  induction vs with
  | nil => intro acc _ hacc _; simpa using hacc
  | cons vt rest ih =>
    intro acc hWB hacc hexit
    have hWBrest : PluginsWellBehaved rest :=
      fun vt2 h2 => hWB vt2 (List.mem_cons_of_mem vt h2)
    simp only [List.foldl_cons] at hexit ⊢
    by_cases hsel : selectorMatches vt.1 t = true
    · by_cases hcode : (vt.2.validate_file_format f.file_path t).1 = 0
      · have hplog :
            Logger.hasError (vt.2.validate_file_format f.file_path t).2 = false :=
          hWB vt (List.mem_cons_self ..) f.file_path t hcode
        have hacc2 : Logger.hasError
            (ffProcessValidator f t acc vt).1 = false := by
          simp [ffProcessValidator, hsel, hcode, Logger.hasError,
            List.any_append] at hacc hplog ⊢
          exact ⟨hacc, hplog⟩
        exact ih _ hWBrest hacc2 hexit
      · exfalso
        have h1 : (ffProcessValidator f t acc vt).2 ≠ 0 := by
          simp [ffProcessValidator, hsel, hcode]
        exact absurd hexit
          (by simpa using (ffFold_exit f t rest _).mpr (Or.inl h1))
    · have hsel2 : selectorMatches vt.1 t = false := Bool.eq_false_iff.mpr hsel
      have hacc2 : Logger.hasError (ffProcessValidator f t acc vt).1 = false := by
        simp [ffProcessValidator, hsel2, Logger.hasError, List.any_append,
          ffUncoveredWarning] at hacc ⊢
        exact hacc
      exact ih _ hWBrest hacc2 hexit

/-! ## Claim theorems -/

/-- Bridge: a failing `re.fullmatch` refutes whole-string language
membership for the compiled pattern. -/
theorem not_patMatchesWhole_of_re_fullmatch_false (pattern s : String)
    (h : re_fullmatch pattern s = false) : ¬ patMatchesWhole pattern s := by
  rintro ⟨re, hp, hm⟩
  simp only [re_fullmatch, hp] at h
  exact absurd ((Regex.matchWhole_iff re s.data).mpr hm) (by simp [h])

/-- C1 (counterexample): the claim states that a regex rule matches
only when the whole POSIX-form candidate string matches the regex.  For
the regex rule `a/` and the candidate path `a/b`, `match_any_regex`
returns `true` although the compiled regex matches only the proper
prefix `a/` of the candidate, not the whole string: the code uses
start-anchored `re.match`, not a full match. -/
theorem C1_counterexample :
    match_any_regex "a/b" [{ string := "a/", is_regex := true }] false = true ∧
    ¬ patMatchesWhole "a/" (as_posix "a/b") :=
  ⟨by decide,
    not_patMatchesWhole_of_re_fullmatch_false "a/" (as_posix "a/b") (by decide)⟩

/-- C1 (amended): `match_any_regex` tests each rule that is used as a
regex (because of `force_regex` or its `Regex` kind) with a
start-anchored match: the rule fires exactly when its compiled regex
matches some prefix (not necessarily the whole) of the POSIX-form
candidate; a `Literal`-kind rule (without `force_regex`) fires exactly
on path-normalized equality. -/
theorem C1_match_any_regex_start_anchored (path : String)
    (rules : List PayloadFolderDict) (force : Bool) :
    match_any_regex path rules force = true ↔
      ∃ r ∈ rules,
        if force || r.is_regex then
          ∃ re, parseRegex r.string = some re ∧
            ∃ u v, (as_posix path).data = u ++ v ∧ re.RMatches u
        else as_posix r.string = as_posix path := by
  simp only [match_any_regex, List.any_eq_true]
  refine exists_congr fun r => and_congr_right fun _ => ?_
  by_cases hc : (force || r.is_regex) = true
  · simp only [hc, if_true]
    simp only [re_match]
    cases hp : parseRegex r.string with
    | none => simp
    | some re =>
      simp only [Option.some.injEq]
      rw [Regex.matchStart_iff]
      constructor
      · rintro ⟨u, v, huv, hu⟩
        exact ⟨re, rfl, u, v, huv, hu⟩
      · rintro ⟨re2, hre2, u, v, huv, hu⟩
        subst hre2
        exact ⟨u, v, huv, hu⟩
  · have hc2 : (force || r.is_regex) = false := Bool.eq_false_iff.mpr hc
    simp only [hc2, Bool.false_eq_true, if_false]
    exact beq_iff_eq

/-- C3: the spec's concrete scenario.  With the profile requiring
`required_directory` and allowing `required_directory` and the regex
`optional_directory/\d+`, the payload holding
`required_directory/dummy.txt` and `optional_directory/4/dummy.doc`
validates with exit code `0`; adding `optional_directory/4a/dummy.doc`
raises the profile-conformance error, the log carrying exactly one
`ERROR` diagnostic, which names only the added file. -/
theorem C3_scenario :
    (PayloadStructureValidator.validate_bag "url" scenarioProfile
      scenarioBagGood).2 = Except.ok 0 ∧
    ((PayloadStructureValidator.validate_bag "url" scenarioProfile
      scenarioBagBad).1.filter fun d => d.context == Context.ERROR) =
      [psError ("File 'data/optional_directory/4a/dummy.doc' found in " ++
        "illegal location of payload directory.")] ∧
    (∃ msg, (PayloadStructureValidator.validate_bag "url" scenarioProfile
      scenarioBagBad).2 = .error (.payloadStructureValidationError msg)) := by
  refine ⟨by decide, by decide, ⟨_, rfl⟩⟩

/-- C7: a `Literal` directory rule, normalized with a trailing path
separator, matches exactly the directory path it names:
`matches(r, [r])` is true, and `matches(r ++ "x", [r])` is false, so a
sibling whose name extends the rule's directory never matches. -/
theorem C7_literal_rule_exact (r : String) (h : ∃ s, r = s ++ "/") :
    match_any_regex r [{ string := r, is_regex := false }] false = true ∧
    match_any_regex (r ++ "x") [{ string := r, is_regex := false }] false
      = false := by
  obtain ⟨s, rfl⟩ := h
  constructor
  · simp only [match_any_regex, List.any_cons, List.any_nil]
    simp
  · simp only [match_any_regex, List.any_cons, List.any_nil]
    simp only [Bool.or_false, Bool.false_or, Bool.or_self,
      Bool.false_eq_true, if_false]
    simpa using (as_posix_slash_extend s).symm

/-- C7 (witness): the literal rule `required_directory/` matches itself
and not `required_directory/x`. -/
theorem C7_literal_rule_exact_witness :
    match_any_regex "required_directory/"
      [{ string := "required_directory/", is_regex := false }] false = true ∧
    match_any_regex ("required_directory/" ++ "x")
      [{ string := "required_directory/", is_regex := false }] false
      = false :=
  C7_literal_rule_exact "required_directory/" ⟨"required_directory", rfl⟩

/-- C6: for every payload tree and every lowercase form `k`, the
capitalization check yields one collision Error per occurrence of `k`
beyond the first (`n` occurrences yield `n - 1` Errors), and every
collision diagnostic pairs the offending path with the first-seen path
of its lowercase form. -/
theorem C6_capitalization_groups (bag : Bag) (k : String) :
    (validate_payload_files_capitalization bag).2 =
      (capCollisions (bag.payloadFiles.map fun f => "data/" ++ f) []).map
        capDiag ∧
    ((capCollisions (bag.payloadFiles.map fun f => "data/" ++ f) []).countP
      fun c => (strLower c.1) == k) =
      ((bag.payloadFiles.map fun f => "data/" ++ f).countP
        fun f => (strLower f) == k) - 1 ∧
    ∀ c ∈ capCollisions (bag.payloadFiles.map fun f => "data/" ++ f) [],
      c.1 ∈ bag.payloadFiles.map (fun f => "data/" ++ f) ∧
      (bag.payloadFiles.map fun f => "data/" ++ f).find?
        (fun f => (strLower f) == (strLower c.1)) = some c.2 ∧
      strLower c.2 = strLower c.1 := by
  refine ⟨rfl, ?_, ?_⟩
  · rw [capCollisions_countP]
    simp
  · intro c hc
    obtain ⟨hmem, hrest⟩ := capCollisions_pair _ [] c hc
    rcases hrest with ⟨kv, hkv, -⟩ | ⟨-, hfound⟩
    · exact absurd hkv (by simp)
    · refine ⟨hmem, hfound, ?_⟩
      simpa using List.find?_some hfound

/-- C6 (witness): three files whose relative paths collide under
case-insensitive comparison produce exactly two collision pairs, each
against the first-seen path. -/
theorem C6_capitalization_groups_witness :
    (capCollisions ((Bag.mk ["A.txt", "a.TXT", "a.txt"] []).payloadFiles.map
      fun f => "data/" ++ f) []).countP
        (fun c => (strLower c.1) == "data/a.txt") = 2 ∧
    ((Bag.mk ["A.txt", "a.TXT", "a.txt"] []).payloadFiles.map
      fun f => "data/" ++ f).find?
        (fun f => (strLower f) == (strLower "data/a.TXT")) =
      some "data/A.txt" := by
  have h := C6_capitalization_groups (Bag.mk ["A.txt", "a.TXT", "a.txt"] [])
    "data/a.txt"
  constructor
  · calc (capCollisions ((Bag.mk ["A.txt", "a.TXT", "a.txt"] []).payloadFiles.map
        fun f => "data/" ++ f) []).countP
          (fun c => (strLower c.1) == "data/a.txt")
        = (((Bag.mk ["A.txt", "a.TXT", "a.txt"] []).payloadFiles.map
            fun f => "data/" ++ f).countP
          fun f => (strLower f) == "data/a.txt") - 1 := h.2.1
      _ = 2 := by decide
  · have h3 := (h.2.2 ("data/a.TXT", "data/A.txt") (by decide)).2.1
    exact h3

/-- C5: one `validate_bag` call of the payload-structure validator runs
all four sub-checks and retains each sub-check's diagnostics in the
final log even when an earlier sub-check failed; it raises the
profile-conformance error iff at least one sub-check fails, and returns
`0` otherwise. -/
theorem C5_all_subchecks_run (url : String) (profile : PSProfile) (bag : Bag) :
    ((validate_payload_directories_allowed (mkRequired profile)
        (mkAllowed profile)).2.Sublist
        (PayloadStructureValidator.validate_bag url profile bag).1 ∧
      (validate_payload_directories_required profile bag).2.Sublist
        (PayloadStructureValidator.validate_bag url profile bag).1 ∧
      (validate_payload_dir_files profile (mkAllowed profile) bag).2.Sublist
        (PayloadStructureValidator.validate_bag url profile bag).1 ∧
      (validate_payload_files_capitalization bag).2.Sublist
        (PayloadStructureValidator.validate_bag url profile bag).1) ∧
    ((∃ msg, (PayloadStructureValidator.validate_bag url profile bag).2 =
        .error (.payloadStructureValidationError msg)) ↔
      ((validate_payload_directories_allowed (mkRequired profile)
          (mkAllowed profile)).1 &&
        (validate_payload_directories_required profile bag).1 &&
        (validate_payload_dir_files profile (mkAllowed profile) bag).1 &&
        (validate_payload_files_capitalization bag).1) = false) ∧
    (((validate_payload_directories_allowed (mkRequired profile)
          (mkAllowed profile)).1 &&
        (validate_payload_directories_required profile bag).1 &&
        (validate_payload_dir_files profile (mkAllowed profile) bag).1 &&
        (validate_payload_files_capitalization bag).1) = true →
      (PayloadStructureValidator.validate_bag url profile bag).2 =
        Except.ok 0) := by
  have hlog : (PayloadStructureValidator.validate_bag url profile bag).1 =
      (validate_payload_directories_allowed (mkRequired profile)
        (mkAllowed profile)).2 ++
      ((validate_payload_directories_required profile bag).2 ++
      ([psInfo (if (validate_payload_directories_allowed (mkRequired profile)
            (mkAllowed profile)).1 &&
          (validate_payload_directories_required profile bag).1 then
          PS_POS_ALLOW_REQ url else PS_NEG_ALLOW_REQ url)] ++
      ((validate_payload_dir_files profile (mkAllowed profile) bag).2 ++
      ([psInfo (if (validate_payload_dir_files profile
            (mkAllowed profile) bag).1 then PS_POS_STRUCT
          else PS_NEG_STRUCT)] ++
      ((validate_payload_files_capitalization bag).2 ++
      [psInfo (if (validate_payload_files_capitalization bag).1 then
        PS_POS_CAP else PS_NEG_CAP)]))))) := by
    simp only [PayloadStructureValidator.validate_bag]
    by_cases hcond :
        ((validate_payload_directories_allowed (mkRequired profile)
            (mkAllowed profile)).1 &&
          (validate_payload_directories_required profile bag).1 &&
          (validate_payload_dir_files profile (mkAllowed profile) bag).1 &&
          (validate_payload_files_capitalization bag).1) = true <;>
      simp [hcond, List.append_assoc]
  refine ⟨?_, ?_, ?_⟩
  · rw [hlog]
    refine ⟨List.sublist_append_left _ _, ?_, ?_, ?_⟩
    · exact (List.sublist_append_left _ _).trans
        (List.sublist_append_right _ _)
    · exact (List.sublist_append_left _ _).trans
        ((List.sublist_append_right _ _).trans
        ((List.sublist_append_right _ _).trans
        (List.sublist_append_right _ _)))
    · exact (List.sublist_append_left _ _).trans
        ((List.sublist_append_right _ _).trans
        ((List.sublist_append_right _ _).trans
        ((List.sublist_append_right _ _).trans
        ((List.sublist_append_right _ _).trans
        (List.sublist_append_right _ _)))))
  · simp only [PayloadStructureValidator.validate_bag]
    by_cases hcond :
        ((validate_payload_directories_allowed (mkRequired profile)
            (mkAllowed profile)).1 &&
          (validate_payload_directories_required profile bag).1 &&
          (validate_payload_dir_files profile (mkAllowed profile) bag).1 &&
          (validate_payload_files_capitalization bag).1) = true <;>
      simp [hcond]
  · intro hcond
    simp only [PayloadStructureValidator.validate_bag]
    simp [hcond]

/-- C5 (witness): with an empty profile and an empty bag all four
sub-checks pass and `validate_bag` returns `0`. -/
theorem C5_all_subchecks_run_witness :
    (PayloadStructureValidator.validate_bag "url" (PSProfile.mk none none)
      (Bag.mk [] [])).2 = Except.ok 0 :=
  (C5_all_subchecks_run "url" (PSProfile.mk none none) (Bag.mk [] [])).2.2
    (by decide)

/-- Shape of `validate_file` for a supported method identifier and a
nonempty expected value: the computed digest is compared for exact
string equality. -/
theorem validate_file_supported (v : FileIntegrityValidator)
    (fileBytes : List Nat) (m val : String) (g : List Nat → String)
    (hfind : SUPPORTED_HASHING_METHODS.find? (fun x => x.1 == m) = some (m, g))
    (hval : val ≠ "") :
    FileIntegrityValidator.validate_file v fileBytes (some m) (some val) =
      if g fileBytes = val then ([fiInfo FI_POSITIVE_RESPONSE], Except.ok 0)
      else ([fiInfo FI_NEGATIVE_RESPONSE,
          fiError (FI_ERROR_DETAIL val (g fileBytes))],
        Except.error (.payloadIntegrityValidationError "Invalid file.")) := by
  have hmem := List.mem_of_find?_eq_some hfind
  have hm0 : m ≠ "" := by
    simp only [SUPPORTED_HASHING_METHODS, List.mem_cons, List.mem_singleton,
      Prod.mk.injEq, List.not_mem_nil, or_false] at hmem
    rcases hmem with ⟨rfl, -⟩ | ⟨rfl, -⟩ | ⟨rfl, -⟩ | ⟨rfl, -⟩ <;> decide
  have hany : (SUPPORTED_HASHING_METHODS.any fun x => some x.1 == some m)
      = true := by
    rw [List.any_eq_true]
    exact ⟨(m, g), List.mem_of_find?_eq_some hfind, by simp⟩
  have hgm : FileIntegrityValidator.get_method v.method (some m) false =
      .ok (some m) := by
    unfold FileIntegrityValidator.get_method
    rw [hany]
    simp [pyOrStr, hm0]
  simp only [FileIntegrityValidator.validate_file, hgm]
  have hpy : pyOrStr (some val) v.value = some val := by
    simp [pyOrStr, hval]
  simp only [hpy]
  have hhash : hash_from_file m fileBytes = .ok (g fileBytes) := by
    simp [hash_from_file, hash_from_bytes, hfind]
  simp only [Option.getD_some, hhash]
  by_cases heq : g fileBytes = val
  · simp [heq, Logger.hasError, fiInfo]
  · simp [heq, Logger.hasError, fiInfo, fiError]

/-- C4 (counterexample): the claim states that the single-file checksum
check succeeds whenever the recomputed digest equals the expected one
under case-insensitive comparison.  For the empty file the MD5 digest
equals the uppercased expected value case-insensitively, yet
`validate_file` fails with `PayloadIntegrityValidationError`: the code
compares `hexdigest()` output (lowercase) to the expected string with
case-sensitive `==`. -/
theorem C4_counterexample :
    strLower "D41D8CD98F00B204E9800998ECF8427E" = strLower (md5Hex []) ∧
    (FileIntegrityValidator.validate_file ⟨none, none⟩ [] (some "md5")
      (some "D41D8CD98F00B204E9800998ECF8427E")).2 =
      .error (.payloadIntegrityValidationError "Invalid file.") := by
  constructor
  · decide
  · decide

/-- C4 (amended): the single-file checksum check succeeds exactly when
the recomputed digest equals the expected digest as strings
(case-sensitively; `hexdigest()` is lowercase, so an uppercase expected
digest of the same value fails), and on any mismatch it fails with an
Error diagnostic naming both the expected and the computed digest. -/
theorem C4_checksum_comparison (v : FileIntegrityValidator)
    (fileBytes : List Nat) (m val : String) (g : List Nat → String)
    (hfind : SUPPORTED_HASHING_METHODS.find? (fun x => x.1 == m) = some (m, g))
    (hval : val ≠ "") :
    ((FileIntegrityValidator.validate_file v fileBytes (some m)
        (some val)).2 = Except.ok 0 ↔ g fileBytes = val) ∧
    (g fileBytes ≠ val →
      (FileIntegrityValidator.validate_file v fileBytes (some m)
        (some val)).2 =
        .error (.payloadIntegrityValidationError "Invalid file.") ∧
      fiError (FI_ERROR_DETAIL val (g fileBytes)) ∈
        (FileIntegrityValidator.validate_file v fileBytes (some m)
          (some val)).1) := by
  rw [validate_file_supported v fileBytes m val g hfind hval]
  by_cases heq : g fileBytes = val
  · simp [heq]
  · simp [heq]

/-- C4 (witness): the empty file validates against its exact lowercase
MD5 digest. -/
theorem C4_checksum_comparison_witness :
    (FileIntegrityValidator.validate_file ⟨none, none⟩ [] (some "md5")
      (some "d41d8cd98f00b204e9800998ecf8427e")).2 = Except.ok 0 :=
  (C4_checksum_comparison ⟨none, none⟩ [] "md5"
    "d41d8cd98f00b204e9800998ecf8427e" md5Hex rfl
    (by decide)).1.mpr (by decide)

/-- C8: a hashing request with an identifier outside the supported set
(md5, sha1, sha256, sha512) fails fast with `ValueError` — at
construction time, at `validate_file` call time (with an empty log, so
nothing is recorded in a Report and no validation error is raised), and
in `hash_from_bytes`. -/
theorem C8_unsupported_method (m : String)
    (hm : m ∉ ["md5", "sha1", "sha256", "sha512"]) :
    (∀ value, ∃ msg,
      FileIntegrityValidator.init (some m) value = .error (.valueError msg)) ∧
    (∀ v fileBytes value, ∃ msg,
      FileIntegrityValidator.validate_file v fileBytes (some m) value =
        ([], .error (.valueError msg))) ∧
    (∀ data, ∃ msg,
      hash_from_bytes m data = .error (.valueError msg)) := by
  have hne : m ≠ "md5" ∧ m ≠ "sha1" ∧ m ≠ "sha256" ∧ m ≠ "sha512" := by
    simp only [List.mem_cons, List.mem_singleton] at hm
    push_neg at hm
    exact ⟨hm.1, hm.2.1, hm.2.2.1, hm.2.2.2.1⟩
  have hany : (SUPPORTED_HASHING_METHODS.any fun x => some x.1 == some m)
      = false := by
    simp only [SUPPORTED_HASHING_METHODS, List.any_cons, List.any_nil,
      Bool.or_false]
    simp [Ne.symm hne.1, Ne.symm hne.2.1, Ne.symm hne.2.2.1,
      Ne.symm hne.2.2.2]
  have hfind : SUPPORTED_HASHING_METHODS.find? (fun x => x.1 == m) = none := by
    rw [List.find?_eq_none]
    intro x hx
    simp only [SUPPORTED_HASHING_METHODS, List.mem_cons, List.mem_singleton,
      List.not_mem_nil, or_false] at hx
    rcases hx with rfl | rfl | rfl | rfl <;>
      simp [Ne.symm hne.1, Ne.symm hne.2.1, Ne.symm hne.2.2.1,
        Ne.symm hne.2.2.2]
  refine ⟨?_, ?_, ?_⟩
  · intro value
    refine ⟨"Value '" ++ m ++ "' for 'method' not allowed.", ?_⟩
    unfold FileIntegrityValidator.init FileIntegrityValidator.get_method
    rw [hany]
    simp
  · intro v fileBytes value
    refine ⟨"Value '" ++ m ++ "' for 'method' not allowed.", ?_⟩
    unfold FileIntegrityValidator.validate_file
      FileIntegrityValidator.get_method
    rw [hany]
    simp
  · intro data
    refine ⟨"Unknown method '" ++ m ++ "'.", ?_⟩
    simp [hash_from_bytes, hfind]

/-- C8 (witness): the identifier `sha3` is rejected with `ValueError`
everywhere. -/
theorem C8_unsupported_method_witness :
    (∃ msg, FileIntegrityValidator.init (some "sha3") none =
      .error (.valueError msg)) ∧
    (∃ msg, FileIntegrityValidator.validate_file ⟨none, none⟩ [0]
      (some "sha3") (some "abc") = ([], .error (.valueError msg))) ∧
    (∃ msg, hash_from_bytes "sha3" [0] = .error (.valueError msg)) := by
  have h := C8_unsupported_method "sha3" (by decide)
  exact ⟨h.1 none, h.2.1 ⟨none, none⟩ [0] (some "abc"), h.2.2 [0]⟩

/-- Per-file exit of the dispatch core: nonzero iff the file is
unidentifiable or some plugin whose selector covers the type returns a
nonzero verdict. -/
theorem ffCore_exit_iff (vs : List (TypeSelector × FileFormatPlugin))
    (f : FFile) :
    (ffValidateFileCore vs f).2 ≠ 0 ↔
      f.file_type = none ∨ ∃ vt ∈ vs, ∃ t, f.file_type = some t ∧
        selectorMatches vt.1 t = true ∧
        (vt.2.validate_file_format f.file_path t).1 ≠ 0 := by
  cases hft : f.file_type with
  | none => simp [ffValidateFileCore, hft]
  | some t =>
    simp only [ffValidateFileCore, hft]
    rw [ffFold_exit f t vs ([], 0)]
    constructor
    · rintro (hz | ⟨vt, hvt, hsel, hcode⟩)
      · exact absurd rfl hz
      · exact Or.inr ⟨vt, hvt, t, rfl, hsel, hcode⟩
    · rintro (hnone | ⟨vt, hvt, t2, ht2, hsel, hcode⟩)
      · exact absurd hnone (by simp)
      · obtain rfl : t2 = t := by injection ht2 with h2; exact h2.symm
        exact Or.inr ⟨vt, hvt, hsel, hcode⟩

/-- C9: an identified file whose MIME type matches no registered
selector receives exactly one `WARNING` (never an `ERROR`) per
registered plugin and exit code `0`; and bag-level format validation
raises its error iff some payload file is unidentifiable or receives a
nonzero verdict from a plugin whose selector covers its type. -/
theorem C9_uncovered_type_dispatch :
    (∀ (vs : List (TypeSelector × FileFormatPlugin)) (f : FFile)
      (t : String), f.file_type = some t →
      (∀ vt ∈ vs, selectorMatches vt.1 t = false) →
      ffValidateFileCore vs f =
        (vs.map fun vt =>
          ffUncoveredWarning vt.2.VALIDATOR_TAG f t (selectorText vt.1), 0) ∧
      ∀ d ∈ (ffValidateFileCore vs f).1, d.context = Context.WARNING) ∧
    (∀ vs files,
      (∃ e, (FileFormatValidator.validate_bag vs files).2 = Except.error e) ↔
      ∃ f ∈ files, f.file_type = none ∨ ∃ vt ∈ vs, ∃ t,
        f.file_type = some t ∧ selectorMatches vt.1 t = true ∧
        (vt.2.validate_file_format f.file_path t).1 ≠ 0) := by
  constructor
  · intro vs f t hft hsel
    have hcore : ffValidateFileCore vs f =
        (vs.map fun vt =>
          ffUncoveredWarning vt.2.VALIDATOR_TAG f t (selectorText vt.1), 0) := by
      simp only [ffValidateFileCore, hft]
      rw [ffFold_unmatched f t vs ([], 0) hsel]
      simp
    refine ⟨hcore, ?_⟩
    rw [hcore]
    intro d hd
    obtain ⟨vt, hvt, rfl⟩ := List.mem_map.mp hd
    rfl
  · intro vs files
    simp only [FileFormatValidator.validate_bag]
    rw [ffFinalize_error_iff]
    cases hany : ((files.map (ffValidateFileCore vs)).any
        fun r => decide (r.2 ≠ 0)) with
    | true =>
      refine iff_of_true (by simp [hany]) ?_
      rw [List.any_eq_true] at hany
      obtain ⟨r, hr, hrz⟩ := hany
      obtain ⟨f, hf, rfl⟩ := List.mem_map.mp hr
      exact ⟨f, hf, (ffCore_exit_iff vs f).mp (by simpa using hrz)⟩
    | false =>
      refine iff_of_false (by simp [hany]) ?_
      rintro ⟨f, hf, hor⟩
      have hz := (ffCore_exit_iff vs f).mpr hor
      have hc : ((files.map (ffValidateFileCore vs)).any
          fun r => decide (r.2 ≠ 0)) = true :=
        List.any_eq_true.mpr ⟨ffValidateFileCore vs f,
          List.mem_map.mpr ⟨f, hf, rfl⟩, by simpa using hz⟩
      rw [hany] at hc
      exact Bool.false_ne_true hc

/-- C9 (witness): one pass plugin selecting only `text/plain` leaves a
PNG file with a single warning and exit `0`; a bag with one matching
plain-text file passes while adding an unidentifiable file makes it
raise. -/
theorem C9_uncovered_type_dispatch_witness :
    ffValidateFileCore [(TypeSelector.ofList ["text/plain"], pluginPass)]
      ⟨"img.png", some "image/png"⟩ =
      ([ffUncoveredWarning "Pass Plugin" ⟨"img.png", some "image/png"⟩
        "image/png" (selectorText (TypeSelector.ofList ["text/plain"]))],
        0) ∧
    (∃ e, (FileFormatValidator.validate_bag
      [(TypeSelector.ofList ["text/plain"], pluginPass)]
      [⟨"a.txt", some "text/plain"⟩, ⟨"f.bin", none⟩]).2 =
        Except.error e) := by
  constructor
  · have h := (C9_uncovered_type_dispatch.1
      [(TypeSelector.ofList ["text/plain"], pluginPass)]
      ⟨"img.png", some "image/png"⟩ "image/png" rfl ?_).1
    · simpa using h
    · intro vt hvt
      simp only [List.mem_singleton] at hvt
      subst hvt
      decide
  · exact (C9_uncovered_type_dispatch.2
      [(TypeSelector.ofList ["text/plain"], pluginPass)]
      [⟨"a.txt", some "text/plain"⟩, ⟨"f.bin", none⟩]).mpr
      ⟨⟨"f.bin", none⟩, by simp, Or.inl rfl⟩

/-- `_get_method` only ever raises `ValueError`. -/
theorem get_method_error_valueError (sm m : Option String) (an : Bool)
    (e : PyError)
    (h : FileIntegrityValidator.get_method sm m an = .error e) :
    ∃ msg, e = .valueError msg := by
  unfold FileIntegrityValidator.get_method at h
  split_ifs at h
  · exact ⟨_, by injection h with h2; exact h2.symm⟩
  · exact ⟨_, by injection h with h2; exact h2.symm⟩

set_option maxRecDepth 8000 in
/-- C10 (counterexample): the claim states that an empty expected
digest can never be compared.  Constructing the validator with the
instance-level expected value `""` (accepted unchecked by `__init__`)
and calling `validate_file` with the empty-string `value` argument does
compare the empty digest: the call hashes the file, logs the mismatch
Error naming expected `''`, and raises
`PayloadIntegrityValidationError` — not `ValueError`. -/
theorem C10_counterexample :
    FileIntegrityValidator.init (some "md5") (some "") =
      .ok ⟨some "md5", some ""⟩ ∧
    (FileIntegrityValidator.validate_file ⟨some "md5", some ""⟩ [] none
      (some "")).1 =
      [fiInfo FI_NEGATIVE_RESPONSE,
        fiError (FI_ERROR_DETAIL "" "d41d8cd98f00b204e9800998ecf8427e")] ∧
    (FileIntegrityValidator.validate_file ⟨some "md5", some ""⟩ [] none
      (some "")).2 =
      .error (.payloadIntegrityValidationError "Invalid file.") := by
  refine ⟨rfl, by decide, by decide⟩

/-- C10 (amended): an empty-string `value` argument to `validate_file`
is ignored in favor of the instance-level `self.value`; when
`self.value` is `None` the call raises `ValueError` with an empty log
and without reading or hashing the file (the result is independent of
the file bytes).  When `self.value` is itself the empty string,
however, the empty expected digest is compared (see the
counterexample). -/
theorem C10_empty_value_fallback (v : FileIntegrityValidator)
    (fileBytes : List Nat) (method : Option String) :
    (FileIntegrityValidator.validate_file v fileBytes method (some "") =
      FileIntegrityValidator.validate_file v fileBytes method none) ∧
    (v.value = none →
      (∃ msg, (FileIntegrityValidator.validate_file v fileBytes method
        (some "")).2 = .error (.valueError msg)) ∧
      (FileIntegrityValidator.validate_file v fileBytes method
        (some "")).1 = [] ∧
      ∀ fileBytes2, FileIntegrityValidator.validate_file v fileBytes2 method
        (some "") =
        FileIntegrityValidator.validate_file v fileBytes method (some "")) := by
  cases hgm : FileIntegrityValidator.get_method v.method method false with
  | error e =>
    obtain ⟨msg, rfl⟩ := get_method_error_valueError v.method method false e hgm
    refine ⟨by simp [FileIntegrityValidator.validate_file, hgm], fun hv => ?_⟩
    refine ⟨⟨msg, by simp [FileIntegrityValidator.validate_file, hgm]⟩,
      by simp [FileIntegrityValidator.validate_file, hgm], fun fb2 => ?_⟩
    simp [FileIntegrityValidator.validate_file, hgm]
  | ok mm =>
    have hpy : pyOrStr (some "") v.value = v.value := by simp [pyOrStr]
    refine ⟨?_, fun hv => ?_⟩
    · simp only [FileIntegrityValidator.validate_file, hgm, hpy]
      rfl
    · refine ⟨⟨"Missing required argument 'value'.", ?_⟩, ?_, fun fb2 => ?_⟩
      · simp [FileIntegrityValidator.validate_file, hgm, hv, pyOrStr]
      · simp [FileIntegrityValidator.validate_file, hgm, hv, pyOrStr]
      · simp [FileIntegrityValidator.validate_file, hgm, hv, pyOrStr]

/-- C10 (witness): with an unset instance value, an empty `value`
argument raises `ValueError` with an empty log. -/
theorem C10_empty_value_fallback_witness :
    (∃ msg, (FileIntegrityValidator.validate_file ⟨some "md5", none⟩ [42]
      (some "md5") (some "")).2 = .error (.valueError msg)) ∧
    (FileIntegrityValidator.validate_file ⟨some "md5", none⟩ [42]
      (some "md5") (some "")).1 = [] :=
  ⟨((C10_empty_value_fallback ⟨some "md5", none⟩ [42] (some "md5")).2
      rfl).1,
    ((C10_empty_value_fallback ⟨some "md5", none⟩ [42] (some "md5")).2
      rfl).2.1⟩

/-- `hasError` distributes over append. -/
theorem hasError_append (a b : Logger) :
    Logger.hasError (a ++ b) = (Logger.hasError a || Logger.hasError b) :=
  List.any_append

/-- When some sub-check fails, `validate_bag` raises the
profile-conformance error carrying the flattened log. -/
theorem ps_validate_bag_error (url : String) (profile : PSProfile) (bag : Bag)
    (hcond : ¬((validate_payload_directories_allowed (mkRequired profile)
        (mkAllowed profile)).1 &&
      (validate_payload_directories_required profile bag).1 &&
      (validate_payload_dir_files profile (mkAllowed profile) bag).1 &&
      (validate_payload_files_capitalization bag).1) = true) :
    (PayloadStructureValidator.validate_bag url profile bag).2 =
      .error (.payloadStructureValidationError
        ("At least one error occurred during validation: " ++
          Logger.flattened
            (PayloadStructureValidator.validate_bag url profile bag).1)) := by
  simp only [PayloadStructureValidator.validate_bag]
  rw [if_neg hcond]

/-- When the exit code is nonzero, `_finalize` raises the
format-validation error carrying the flattened log. -/
theorem ffFinalize_error_shape (log : Logger) (exitcode : Nat) (b : Bool)
    (h : exitcode ≠ 0) :
    (ffFinalize log exitcode b).2 = .error (.fileFormatValidationError
      ("At least one error occurred during file format validation: " ++
        Logger.flattened (log ++ (if b then
          [{ context := .INFO, origin := FF_TAG,
             body := FF_NEGATIVE_RESPONSE }] else [])))) := by
  simp [ffFinalize, h]

/-- With a failing step, `PayloadIntegrityValidator.validate_bag`
raises its component error carrying the flattened log. -/
theorem pi_validate_bag_failed (steps : List BagStep)
    (hfail : (steps.any fun s => decide (s ≠ BagStep.ok)) = true) :
    (PayloadIntegrityValidator.validate_bag BagInit.ok steps).2 =
      .error (.payloadIntegrityValidationError
        ("At least one error occurred during payload integrity validation: "
          ++ Logger.flattened ((steps.map piStepLog).flatten ++
            [piDiag .INFO PI_NEGATIVE_RESPONSE]))) := by
  simp only [PayloadIntegrityValidator.validate_bag]
  rw [hfail]
  simp

/-- With no failing step, `PayloadIntegrityValidator.validate_bag`
returns `0` with the positive verdict logged. -/
theorem pi_validate_bag_ok (steps : List BagStep)
    (hfail : (steps.any fun s => decide (s ≠ BagStep.ok)) = false) :
    PayloadIntegrityValidator.validate_bag BagInit.ok steps =
      ((steps.map piStepLog).flatten ++ [piDiag .INFO PI_POSITIVE_RESPONSE],
        Except.ok 0) := by
  simp only [PayloadIntegrityValidator.validate_bag]
  rw [hfail]
  simp

/-- With exit code `0`, `_finalize` appends the positive verdict and
returns `0`. -/
theorem ffFinalize_zero (log : Logger) (b : Bool) :
    ffFinalize log 0 b =
      (log ++ (if b then [⟨Context.INFO, FF_TAG, FF_POSITIVE_RESPONSE⟩]
        else []), Except.ok 0) := by
  simp [ffFinalize]

/-- A file whose dispatch core exits `0` has logged no `ERROR`
(assuming well-behaved plugins). -/
theorem ffCore_exit_zero_noError (vs : List (TypeSelector × FileFormatPlugin))
    (f : FFile) (hWB : PluginsWellBehaved vs)
    (hz : (ffValidateFileCore vs f).2 = 0) :
    Logger.hasError (ffValidateFileCore vs f).1 = false := by
  cases hft : f.file_type with
  | none => rw [ffValidateFileCore, hft] at hz; exact absurd hz (by simp)
  | some t =>
    simp only [ffValidateFileCore, hft] at hz ⊢
    exact ffFold_noError f t vs ([], 0) hWB rfl hz

/-- C2 (counterexample): the claim states that no top-level validation
method returns a nonzero value to its caller.  For a file that `fido`
cannot identify, `FileFormatValidator.validate_file` returns exit code
`1` directly — without raising — via its early return. -/
theorem C2_counterexample :
    (FileFormatValidator.validate_file [] (FFile.mk "file.bin" none)).2 =
      Except.ok 1 := rfl

/-- C2 (amended): every top-level validation method returns `0` —
having logged no Error diagnostic (for the format validator under the
plugin contract that an Error is only logged with a nonzero verdict) —
or raises; the single exception is `FileFormatValidator.validate_file`
on an unidentifiable file, which returns `1` without raising, as its
docstring states.  The payload-structure and format validators raise
their component-specific errors. -/
theorem C2_return_contract :
    (∀ url profile bag,
      ((PayloadStructureValidator.validate_bag url profile bag).2 =
          Except.ok 0 ∧
        Logger.hasError
          (PayloadStructureValidator.validate_bag url profile bag).1 =
          false) ∨
      (∃ msg, (PayloadStructureValidator.validate_bag url profile bag).2 =
        .error (.payloadStructureValidationError msg))) ∧
    (∀ v fileBytes method value,
      ((FileIntegrityValidator.validate_file v fileBytes method value).2 =
          Except.ok 0 ∧
        Logger.hasError
          (FileIntegrityValidator.validate_file v fileBytes method
            value).1 = false) ∨
      (∃ e, (FileIntegrityValidator.validate_file v fileBytes method
        value).2 = Except.error e)) ∧
    (∀ bagInit steps,
      ((PayloadIntegrityValidator.validate_bag bagInit steps).2 =
          Except.ok 0 ∧
        Logger.hasError
          (PayloadIntegrityValidator.validate_bag bagInit steps).1 =
          false) ∨
      (∃ e, (PayloadIntegrityValidator.validate_bag bagInit steps).2 =
        Except.error e)) ∧
    (∀ vs files, PluginsWellBehaved vs →
      ((FileFormatValidator.validate_bag vs files).2 = Except.ok 0 ∧
        Logger.hasError (FileFormatValidator.validate_bag vs files).1 =
          false) ∨
      (∃ msg, (FileFormatValidator.validate_bag vs files).2 =
        .error (.fileFormatValidationError msg))) ∧
    (∀ vs f, f.file_type ≠ none → PluginsWellBehaved vs →
      ((FileFormatValidator.validate_file vs f).2 = Except.ok 0 ∧
        Logger.hasError (FileFormatValidator.validate_file vs f).1 =
          false) ∨
      (∃ msg, (FileFormatValidator.validate_file vs f).2 =
        .error (.fileFormatValidationError msg))) ∧
    (∀ vs f, f.file_type = none →
      (FileFormatValidator.validate_file vs f).2 = Except.ok 1) := by
  refine ⟨?_, ?_, ?_, ?_, ?_, ?_⟩
  · intro url profile bag
    by_cases hcond :
        ((validate_payload_directories_allowed (mkRequired profile)
            (mkAllowed profile)).1 &&
          (validate_payload_directories_required profile bag).1 &&
          (validate_payload_dir_files profile (mkAllowed profile) bag).1 &&
          (validate_payload_files_capitalization bag).1) = true
    · left
      have hc := hcond
      simp only [Bool.and_eq_true] at hc
      obtain ⟨⟨⟨h1, h2⟩, h3⟩, h4⟩ := hc
      have hbe : (Context.INFO == Context.ERROR) = false := rfl
      constructor
      · simp only [PayloadStructureValidator.validate_bag]
        rw [if_pos hcond]
      · simp only [PayloadStructureValidator.validate_bag]
        rw [if_pos hcond]
        simp [vpda_pass_log _ _ h1, vpdr_pass_log _ _ h2,
          vpdf_pass_log _ _ _ h3, vpfc_pass_log _ h4, Logger.hasError,
          psInfo, hbe]
    · exact Or.inr ⟨_, ps_validate_bag_error url profile bag hcond⟩
  · intro v fileBytes method value
    cases hgm : FileIntegrityValidator.get_method v.method method false with
    | error e =>
      exact Or.inr ⟨e, by simp [FileIntegrityValidator.validate_file, hgm]⟩
    | ok mm =>
      cases hpv : pyOrStr value v.value with
      | none =>
        exact Or.inr ⟨.valueError "Missing required argument 'value'.", by
          simp [FileIntegrityValidator.validate_file, hgm, hpv]⟩
      | some val =>
        cases hh : hash_from_file (mm.getD "") fileBytes with
        | error e =>
          exact Or.inr ⟨e, by
            simp [FileIntegrityValidator.validate_file, hgm, hpv, hh]⟩
        | ok hashed =>
          by_cases heq : hashed = val
          · left
            constructor <;>
              simp [FileIntegrityValidator.validate_file, hgm, hpv, hh,
                heq, Logger.hasError, fiInfo]
          · exact Or.inr ⟨.payloadIntegrityValidationError "Invalid file.",
              by simp [FileIntegrityValidator.validate_file, hgm, hpv, hh,
                heq, Logger.hasError, fiInfo, fiError]⟩
  · intro bagInit steps
    cases bagInit with
    | otherBagError msg => exact Or.inr ⟨_, rfl⟩
    | missingBagitTxt => exact Or.inr ⟨_, rfl⟩
    | ok =>
      cases hfail : steps.any (fun s => decide (s ≠ BagStep.ok)) with
      | true =>
        exact Or.inr ⟨_, pi_validate_bag_failed steps hfail⟩
      | false =>
        left
        have hmap : steps.map piStepLog =
            steps.map (fun _ => ([] : Logger)) := by
          rw [List.any_eq_false] at hfail
          refine List.map_congr_left fun s hs => ?_
          have hsok : s = BagStep.ok := by simpa using hfail s hs
          rw [hsok]
          rfl
        have hflat : (steps.map piStepLog).flatten = [] := by
          rw [hmap, List.flatten_eq_nil_iff]
          intro l hl
          obtain ⟨s, -, rfl⟩ := List.mem_map.mp hl
          rfl
        rw [pi_validate_bag_ok steps hfail]
        refine ⟨rfl, ?_⟩
        simp [hflat, Logger.hasError, piDiag]
  · intro vs files hWB
    cases hany : ((files.map (ffValidateFileCore vs)).any
        fun r => decide (r.2 ≠ 0)) with
    | true =>
      right
      simp only [FileFormatValidator.validate_bag]
      rw [hany]
      exact ⟨_, ffFinalize_error_shape _ _ _ (by simp)⟩
    | false =>
      left
      have hall : ∀ r ∈ files.map (ffValidateFileCore vs), r.2 = 0 := by
        rw [List.any_eq_false] at hany
        intro r hr
        have := hany r hr
        simpa using this
      have hflat : Logger.hasError
          ((files.map (ffValidateFileCore vs)).map Prod.fst).flatten =
          false := by
        unfold Logger.hasError
        rw [List.any_flatten, List.any_eq_false]
        intro l hl
        obtain ⟨r, hr, rfl⟩ := List.mem_map.mp hl
        obtain ⟨f, hf, rfl⟩ := List.mem_map.mp hr
        have hne := ffCore_exit_zero_noError vs f hWB
          (hall _ (List.mem_map.mpr ⟨f, hf, rfl⟩))
        simpa [Logger.hasError] using hne
      constructor
      · simp only [FileFormatValidator.validate_bag]
        rw [hany]
        simp only [Bool.false_eq_true, if_false, ffFinalize_zero]
      · simp only [FileFormatValidator.validate_bag]
        rw [hany]
        simp only [Bool.false_eq_true, if_false, ffFinalize_zero, if_true]
        rw [hasError_append, hflat]
        rfl
  · intro vs f hft hWB
    obtain ⟨t, ht⟩ : ∃ t, f.file_type = some t := by
      cases h : f.file_type with
      | none => exact absurd h hft
      | some t => exact ⟨t, rfl⟩
    by_cases hz : (ffValidateFileCore vs f).2 = 0
    · left
      have hne := ffCore_exit_zero_noError vs f hWB hz
      constructor
      · simp only [FileFormatValidator.validate_file, ht, hz,
          ffFinalize_zero]
      · simp only [FileFormatValidator.validate_file, ht, hz,
          ffFinalize_zero, if_true]
        rw [hasError_append, hne]
        rfl
    · right
      simp only [FileFormatValidator.validate_file, ht]
      exact ⟨_, ffFinalize_error_shape _ _ _ hz⟩
  · intro vs f hft
    simp [FileFormatValidator.validate_file, hft]

/-- C2 (witness): the unidentified-file exception returns `1`; a bag
with one covered passing file returns `0` or raises. -/
theorem C2_return_contract_witness :
    (FileFormatValidator.validate_file [] (FFile.mk "file.bin" none)).2 =
      Except.ok 1 ∧
    (((FileFormatValidator.validate_bag
        [(TypeSelector.ofList ["text/plain"], pluginPass)]
        [FFile.mk "a.txt" (some "text/plain")]).2 = Except.ok 0 ∧
      Logger.hasError (FileFormatValidator.validate_bag
        [(TypeSelector.ofList ["text/plain"], pluginPass)]
        [FFile.mk "a.txt" (some "text/plain")]).1 = false) ∨
      (∃ msg, (FileFormatValidator.validate_bag
        [(TypeSelector.ofList ["text/plain"], pluginPass)]
        [FFile.mk "a.txt" (some "text/plain")]).2 =
        .error (.fileFormatValidationError msg))) ∧
    (((FileFormatValidator.validate_file
        [(TypeSelector.ofList ["text/plain"], pluginFail)]
        (FFile.mk "a.txt" (some "text/plain"))).2 = Except.ok 0 ∧
      Logger.hasError (FileFormatValidator.validate_file
        [(TypeSelector.ofList ["text/plain"], pluginFail)]
        (FFile.mk "a.txt" (some "text/plain"))).1 = false) ∨
      (∃ msg, (FileFormatValidator.validate_file
        [(TypeSelector.ofList ["text/plain"], pluginFail)]
        (FFile.mk "a.txt" (some "text/plain"))).2 =
        .error (.fileFormatValidationError msg))) := by
  have hWBpass : PluginsWellBehaved
      [(TypeSelector.ofList ["text/plain"], pluginPass)] := by
    intro vt hvt path t h
    simp only [List.mem_singleton] at hvt
    subst hvt
    rfl
  have hWBfail : PluginsWellBehaved
      [(TypeSelector.ofList ["text/plain"], pluginFail)] := by
    intro vt hvt path t h
    simp only [List.mem_singleton] at hvt
    subst hvt
    exact absurd h (by simp [pluginFail])
  exact ⟨C2_return_contract.2.2.2.2.2 [] (FFile.mk "file.bin" none) rfl,
    C2_return_contract.2.2.2.1 _ _ hWBpass,
    C2_return_contract.2.2.2.2.1 _ (FFile.mk "a.txt" (some "text/plain"))
      (by simp) hWBfail⟩

end DcmBag
